import Mathlib

/-!
Shallow embedding of the teasnack-tracker billing/reconciliation engine and
tally calculator.

Sources embedded:
* the tally gap-fill calculator (TallyAutomation component, computed in a
  memo over the props; embedded here as the pure function computeTally);
* the per-item billing reconciliation engine (BillingService.calculateBilling,
  adjustment schema date -> employeeId -> itemId -> count);
* the legacy flat-count billing variant (BillingService.calculateBilling with
  adjustment schema date -> employeeId -> count, descending-price tie-break).

Modelling conventions:
* JS numbers holding money are modelled as Int (the code computes with exact
  small integers; the Number(x) || 0 coercions and isNaN guards of the source
  are the identity on that fragment and are noted where they occur).
* JS objects used as maps are modelled as association lists; `m[k] || d` is
  lookupD m k d.  Object key iteration order (insertion order = order of
  first occurrence) is modelled by firstKeys.
* JS `arr.filter` and grouping by pushing into a keyed record are modelled
  with List.filter (both preserve the original order).
* JS `Array.prototype.sort` with a comparator is a stable sort, hence
  extensionally equal to insertion sort with the corresponding relation.
* `new Date().toISOString().split('T')[0]` (the current day, read by the
  engine for its today-UI-helper fields) is passed explicitly as a `today`
  argument.
-/

namespace TeaTrack

inductive ItemType where
  | drink : ItemType
  | snack : ItemType
deriving DecidableEq

structure Consumption where
  id : String
  employeeId : String
  itemId : String
  itemName : String
  itemType : ItemType
  price : Int
  date : String
  quantity : Nat
deriving DecidableEq

structure Employee where
  id : String
  name : String
  isActive : Bool
deriving DecidableEq

/-- JS `log.quantity || 1`: a missing/zero quantity counts as 1. -/
def qtyOf (c : Consumption) : Nat := if c.quantity = 0 then 1 else c.quantity

/-- The record as a single unit-priced line item (quantity normalised to
1); all billing figures depend on a record only through this view. -/
def eraseQty (c : Consumption) : Consumption := { c with quantity := 1 }

/-- JS `c.date.split('T')[0]`: the prefix of the date string before the
first 'T'. -/
def dateKey (c : Consumption) : String :=
  String.mk (c.date.data.takeWhile (fun ch => ch != 'T'))

/-- JS `m[k] || d` on an object modelled as an association list. -/
def lookupD {α : Type} (m : List (String × α)) (k : String) (d : α) : α :=
  match m.find? (fun p => decide (p.1 = k)) with
  | some p => p.2
  | none => d

/-- Distinct keys in order of first occurrence (JS object-key insertion
order / Set iteration order), auxiliary with an accumulator of keys seen. -/
def firstKeysAux (seen : List String) : List String → List String
  | [] => []
  | k :: ks => if k ∈ seen then firstKeysAux seen ks else k :: firstKeysAux (k :: seen) ks

def firstKeys (l : List String) : List String := firstKeysAux [] l

def sumBy {α M : Type} [AddCommMonoid M] (f : α → M) (l : List α) : M :=
  (l.map f).sum

def sumPrices (l : List Consumption) : Int := sumBy (·.price) l

/-! ## Tally / gap-fill calculator (TallyAutomation component)

The TallyAutomation component computes a TallyResult in a memo over its
props (date, consumptions of that day, activeEmployeeCount, employees).
That computation is pure; it is embedded here as computeTally and the named
intermediate values below. -/

structure TallyResult where
  date : String
  actualTeaCount : Nat
  totalEmployees : Nat
  adjustedTeaCount : Nat
  snackOnlyConsumers : List String
  extraSnackConsumers : List String
  finalCompanyCost : Int
  gapFilled : Nat
deriving DecidableEq

namespace Tally

/-- The Set of employee ids with at least one drink-type record
(iteration order = insertion order, so firstKeys). -/
def drinkConsumerIds (consumptions : List Consumption) : List String :=
  firstKeys ((consumptions.filter (fun c => decide (c.itemType = .drink))).map (·.employeeId))

def actualTeaCount (consumptions : List Consumption) : Nat :=
  (drinkConsumerIds consumptions).length

/-- Keys of the snackCounts record: snack consumers in first-occurrence order. -/
def snackEmpIds (consumptions : List Consumption) : List String :=
  firstKeys ((consumptions.filter (fun c => decide (c.itemType = .snack))).map (·.employeeId))

/-- snackCounts[empId]: snack units summed by quantity (qty || 1). -/
def snackCountOf (consumptions : List Consumption) (empId : String) : Nat :=
  sumBy qtyOf (consumptions.filter
    (fun c => decide (c.itemType = .snack) && decide (c.employeeId = empId)))

/-- Condition A: consumed snacks and no drink that day. -/
def snackOnlyList (consumptions : List Consumption) : List String :=
  (snackEmpIds consumptions).filter (fun e => decide (e ∉ drinkConsumerIds consumptions))

/-- Condition B: more than one snack unit that day. -/
def extraSnackList (consumptions : List Consumption) : List String :=
  (snackEmpIds consumptions).filter (fun e => decide (1 < snackCountOf consumptions e))

/-- Math.max(0, targetCount - actualTeaCount); Nat subtraction is exactly
that clamp. -/
def initialGap (consumptions : List Consumption) (activeEmployeeCount : Nat) : Nat :=
  activeEmployeeCount - actualTeaCount consumptions

/-- `snackOnlyList.length + extraSnackList.length` as in the source. -/
def totalFillersAvailable (consumptions : List Consumption) : Nat :=
  (snackOnlyList consumptions).length + (extraSnackList consumptions).length

def filledAmount (consumptions : List Consumption) (activeEmployeeCount : Nat) : Nat :=
  min (initialGap consumptions activeEmployeeCount) (totalFillersAvailable consumptions)

def adjustedTeaCount (consumptions : List Consumption) (activeEmployeeCount : Nat) : Nat :=
  actualTeaCount consumptions + filledAmount consumptions activeEmployeeCount

def TEA_RATE : Int := 10

/-- `employees.find(e => e.id === id)?.name || 'Unknown'`. -/
def getName (employees : List Employee) (id : String) : String :=
  match employees.find? (fun e => decide (e.id = id)) with
  | some e => e.name
  | none => "Unknown"

def computeTally (date : String) (consumptions : List Consumption)
    (activeEmployeeCount : Nat) (employees : List Employee) : TallyResult :=
  { date := date
    actualTeaCount := actualTeaCount consumptions
    totalEmployees := activeEmployeeCount
    adjustedTeaCount := adjustedTeaCount consumptions activeEmployeeCount
    snackOnlyConsumers := (snackOnlyList consumptions).map (getName employees)
    extraSnackConsumers := (extraSnackList consumptions).map (getName employees)
    finalCompanyCost := (adjustedTeaCount consumptions activeEmployeeCount : Int) * TEA_RATE
    gapFilled := filledAmount consumptions activeEmployeeCount }

/-- Modelled from the spec: the filler pool as the union of qualifying
employee ids (each snack consumer counted once whether they qualify as
snack-only, extra-snack, or both). -/
def fillerUnionCount (consumptions : List Consumption) : Nat :=
  ((snackEmpIds consumptions).filter (fun e =>
    decide (e ∉ drinkConsumerIds consumptions) || decide (1 < snackCountOf consumptions e))).length

end Tally

/-! ## Shared billing helpers (identical in both calculateBilling variants)

Grouping by pushing into a record keyed by some field is modelled as a
filter for each key (both preserve the original order); the per-key
processing loops iterate the record keys in insertion order, modelled by
firstKeys over the mapped key list.  The source accumulates employee
statistics imperatively day by day; the contribution of a day in which an
employee has no snack unit is zero and the source skips it, so the
aggregates are modelled as sums of per-day contributions over all grouped
dates. -/

/-- Expand quantity-based logs into single units: each log contributes
`quantity || 1` copies of itself. -/
def expandConsumptions (logs : List Consumption) : List Consumption :=
  logs.flatMap (fun log => List.replicate (qtyOf log) log)

/-- groupedByDate[d]: the consumptions whose date key is d, in input order. -/
def dayLogs (consumptions : List Consumption) (d : String) : List Consumption :=
  consumptions.filter (fun c => decide (dateKey c = d))

/-- Object.keys(groupedByDate).sort(): the distinct date keys in ascending
order (a sorted duplicate-free list is independent of the pre-sort key
order, so dedup may be used for the key extraction). -/
def sortedDates (consumptions : List Consumption) : List String :=
  ((consumptions.map dateKey).dedup).insertionSort (fun a b => a ≤ b)

/-- The expanded units of one day. -/
def dayUnits (consumptions : List Consumption) (d : String) : List Consumption :=
  expandConsumptions (dayLogs consumptions d)

def drinkUnits (units : List Consumption) : List Consumption :=
  units.filter (fun u => decide (u.itemType = .drink))

def snackUnits (units : List Consumption) : List Consumption :=
  units.filter (fun u => decide (u.itemType = .snack))

/-- Size of the Set of drink consumers' employee ids. -/
def actualDrinkCount (units : List Consumption) : Nat :=
  (firstKeys ((drinkUnits units).map (·.employeeId))).length

def baseDrinkCost (units : List Consumption) : Int :=
  sumPrices (drinkUnits units)

/-- Object.keys(dailySnacksByEmp) in insertion order. -/
def dayEmpIds (units : List Consumption) : List String :=
  firstKeys ((snackUnits units).map (·.employeeId))

/-- dailySnacksByEmp[empId]. -/
def empDaySnacks (units : List Consumption) (empId : String) : List Consumption :=
  (snackUnits units).filter (fun u => decide (u.employeeId = empId))

/-- Aggregate raw snack logs pushed for an employee across the date range
(`originalDailySnacks` per day, concatenated over the sorted dates). -/
def aggItems (consumptions : List Consumption) (empId : String) : List Consumption :=
  (sortedDates consumptions).flatMap (fun d =>
    (dayLogs consumptions d).filter
      (fun c => decide (c.itemType = .snack) && decide (c.employeeId = empId)))

/-- Aggregate expanded snack-unit count of an employee over the range. -/
def aggCount (consumptions : List Consumption) (empId : String) : Nat :=
  sumBy (fun d => (empDaySnacks (dayUnits consumptions d) empId).length)
    (sortedDates consumptions)

/-- Aggregate original snack amount of an employee over the range. -/
def aggOriginalAmount (consumptions : List Consumption) (empId : String) : Int :=
  sumBy (fun d => sumPrices (empDaySnacks (dayUnits consumptions d) empId))
    (sortedDates consumptions)

/-! ## Billing reconciliation engine, per-item adjustment variant
(BillingService.calculateBilling with DailyAdjustmentMap =
date -> employeeId -> itemId -> count). -/

namespace Billing

/-- itemId -> count (innermost level of the adjustment map). -/
abbrev ItemAdjMap := List (String × Int)

/-- employeeId -> per-item adjustments. -/
abbrev EmpAdjMap := List (String × ItemAdjMap)

/-- date -> per-employee adjustments. -/
abbrev DailyAdjustmentMap := List (String × EmpAdjMap)

/-- Object.keys(snacksByItem) in insertion order. -/
def empItemIds (snacks : List Consumption) : List String :=
  firstKeys (snacks.map (·.itemId))

/-- snacksByItem[itemId]. -/
def itemGroup (snacks : List Consumption) (itemId : String) : List Consumption :=
  snacks.filter (fun u => decide (u.itemId = itemId))

/-- `empAdjustments[itemId] || 0`. -/
def adjCountFor (empAdj : ItemAdjMap) (itemId : String) : Int :=
  lookupD empAdj itemId 0

/-- The per-item loop pushes items[i] to snacksToDeduct exactly when
i < adjustCount, i.e. it deducts the prefix of length
min(items.length, max(adjustCount, 0)); concatenated over the item keys. -/
def empDayDeducted (empAdj : ItemAdjMap) (snacks : List Consumption) : List Consumption :=
  (empItemIds snacks).flatMap
    (fun i => (itemGroup snacks i).take (adjCountFor empAdj i).toNat)

/-- The complementary snacksToPay suffixes, concatenated over the item keys. -/
def empDayPaid (empAdj : ItemAdjMap) (snacks : List Consumption) : List Consumption :=
  (empItemIds snacks).flatMap
    (fun i => (itemGroup snacks i).drop (adjCountFor empAdj i).toNat)

/-- `todaysAdjustments[empId] || {}`. -/
def empAdjOf (dayAdj : EmpAdjMap) (empId : String) : ItemAdjMap :=
  lookupD dayAdj empId []

/-- `dailyAdjustments[date] || {}`. -/
def dayAdjOf (adj : DailyAdjustmentMap) (d : String) : EmpAdjMap :=
  lookupD adj d []

def dayManualAddedCount (dayAdj : EmpAdjMap) (units : List Consumption) : Nat :=
  sumBy (fun e => (empDayDeducted (empAdjOf dayAdj e) (empDaySnacks units e)).length)
    (dayEmpIds units)

def dayManualAddedCost (dayAdj : EmpAdjMap) (units : List Consumption) : Int :=
  sumBy (fun e => sumPrices (empDayDeducted (empAdjOf dayAdj e) (empDaySnacks units e)))
    (dayEmpIds units)

def dayCompanyItems (dayAdj : EmpAdjMap) (units : List Consumption) : List Consumption :=
  drinkUnits units ++
    (dayEmpIds units).flatMap
      (fun e => empDayDeducted (empAdjOf dayAdj e) (empDaySnacks units e))

structure DailyCompanyBill where
  date : String
  totalStaff : Nat
  actualDrinkCount : Nat
  manualAddedCount : Nat
  manualAddedCost : Int
  baseDrinkCost : Int
  totalDailyCost : Int
  items : List Consumption
deriving DecidableEq

structure EmployeeBill where
  employee : Employee
  items : List Consumption
  originalItemCount : Nat
  originalAmount : Int
  payableItems : List Consumption
  totalDeductedCount : Nat
  totalDeductedAmount : Int
  finalPayableAmount : Int
  todayAdjustmentMap : ItemAdjMap
  finalDeductedCount : Nat
  finalDeductedAmount : Int
deriving DecidableEq

structure BillingResult where
  companyBillRows : List DailyCompanyBill
  employeeBills : List EmployeeBill
  totalCompanyBaseAmount : Int
  totalManualTransferAmount : Int
  grandTotalCompanyAmount : Int
deriving DecidableEq

def companyRow (adj : DailyAdjustmentMap) (activeEmployeeCount : Nat)
    (consumptions : List Consumption) (d : String) : DailyCompanyBill :=
  { date := d
    totalStaff := activeEmployeeCount
    actualDrinkCount := actualDrinkCount (dayUnits consumptions d)
    manualAddedCount := dayManualAddedCount (dayAdjOf adj d) (dayUnits consumptions d)
    manualAddedCost := dayManualAddedCost (dayAdjOf adj d) (dayUnits consumptions d)
    baseDrinkCost := baseDrinkCost (dayUnits consumptions d)
    totalDailyCost := baseDrinkCost (dayUnits consumptions d) +
      dayManualAddedCost (dayAdjOf adj d) (dayUnits consumptions d)
    items := dayCompanyItems (dayAdjOf adj d) (dayUnits consumptions d) }

def companyRows (adj : DailyAdjustmentMap) (activeEmployeeCount : Nat)
    (consumptions : List Consumption) : List DailyCompanyBill :=
  (sortedDates consumptions).map (companyRow adj activeEmployeeCount consumptions)

/-- Per-day deducted snacks of one employee id (empty on days without
snack units of that employee, exactly as the source then skips them). -/
def dayDeductedOf (consumptions : List Consumption) (adj : DailyAdjustmentMap)
    (d : String) (empId : String) : List Consumption :=
  empDayDeducted (empAdjOf (dayAdjOf adj d) empId) (empDaySnacks (dayUnits consumptions d) empId)

def dayPaidOf (consumptions : List Consumption) (adj : DailyAdjustmentMap)
    (d : String) (empId : String) : List Consumption :=
  empDayPaid (empAdjOf (dayAdjOf adj d) empId) (empDaySnacks (dayUnits consumptions d) empId)

def aggDeductedCount (consumptions : List Consumption) (adj : DailyAdjustmentMap)
    (empId : String) : Nat :=
  sumBy (fun d => (dayDeductedOf consumptions adj d empId).length) (sortedDates consumptions)

def aggDeductedAmount (consumptions : List Consumption) (adj : DailyAdjustmentMap)
    (empId : String) : Int :=
  sumBy (fun d => sumPrices (dayDeductedOf consumptions adj d empId)) (sortedDates consumptions)

def aggPayableItems (consumptions : List Consumption) (adj : DailyAdjustmentMap)
    (empId : String) : List Consumption :=
  (sortedDates consumptions).flatMap (fun d => dayPaidOf consumptions adj d empId)

def mkEmployeeBill (consumptions : List Consumption) (adj : DailyAdjustmentMap)
    (today : String) (emp : Employee) : EmployeeBill :=
  { employee := emp
    items := aggItems consumptions emp.id
    originalItemCount := aggCount consumptions emp.id
    originalAmount := aggOriginalAmount consumptions emp.id
    payableItems := aggPayableItems consumptions adj emp.id
    totalDeductedCount := aggDeductedCount consumptions adj emp.id
    totalDeductedAmount := aggDeductedAmount consumptions adj emp.id
    finalPayableAmount :=
      max 0 (aggOriginalAmount consumptions emp.id - aggDeductedAmount consumptions adj emp.id)
    todayAdjustmentMap := empAdjOf (dayAdjOf adj today) emp.id
    finalDeductedCount := aggDeductedCount consumptions adj emp.id
    finalDeductedAmount := aggDeductedAmount consumptions adj emp.id }

def employeeBills (consumptions : List Consumption) (employees : List Employee)
    (adj : DailyAdjustmentMap) (today : String) : List EmployeeBill :=
  (employees.map (mkEmployeeBill consumptions adj today)).filter
    (fun b => decide (0 < b.originalItemCount))

/-- BillingService.calculateBilling, per-item adjustment variant.  The
`today` argument stands for new Date().toISOString().split('T')[0], the one
ambient input the source reads besides its parameters.  The isNaN-guards on
the three totals are the identity over exact integers. -/
def calculateBilling (consumptions : List Consumption) (employees : List Employee)
    (activeEmployeeCount : Nat) (dailyAdjustments : DailyAdjustmentMap)
    (today : String) : BillingResult :=
  { companyBillRows := companyRows dailyAdjustments activeEmployeeCount consumptions
    employeeBills := employeeBills consumptions employees dailyAdjustments today
    totalCompanyBaseAmount :=
      sumBy (·.baseDrinkCost) (companyRows dailyAdjustments activeEmployeeCount consumptions)
    totalManualTransferAmount :=
      sumBy (fun d => dayManualAddedCost (dayAdjOf dailyAdjustments d) (dayUnits consumptions d))
        (sortedDates consumptions)
    grandTotalCompanyAmount :=
      sumBy (·.totalDailyCost) (companyRows dailyAdjustments activeEmployeeCount consumptions) }

/-- The number of snack units of item i deducted for employee e on day d:
the length of the take-prefix the engine moves to the company ledger. -/
def dayEmpItemDeductedCount (consumptions : List Consumption) (adj : DailyAdjustmentMap)
    (d : String) (empId : String) (itemId : String) : Nat :=
  ((itemGroup (empDaySnacks (dayUnits consumptions d) empId) itemId).take
    (adjCountFor (empAdjOf (dayAdjOf adj d) empId) itemId).toNat).length

/-- The number of snack units of item i consumed by employee e on day d
(after quantity expansion). -/
def dayEmpItemUnits (consumptions : List Consumption) (d : String)
    (empId : String) (itemId : String) : Nat :=
  (itemGroup (empDaySnacks (dayUnits consumptions d) empId) itemId).length

/-- The monetary totals and unit counts of a company bill row (everything
except the display item list). -/
def rowNumerics (row : DailyCompanyBill) : String × Nat × Nat × Nat × Int × Int × Int :=
  (row.date, row.totalStaff, row.actualDrinkCount, row.manualAddedCount,
   row.manualAddedCost, row.baseDrinkCost, row.totalDailyCost)

/-- The monetary totals and unit counts of an employee bill (everything
except the display item lists and the today-UI helper). -/
def billNumerics (b : EmployeeBill) : Employee × Nat × Int × Nat × Int × Int × Nat × Int :=
  (b.employee, b.originalItemCount, b.originalAmount, b.totalDeductedCount,
   b.totalDeductedAmount, b.finalPayableAmount, b.finalDeductedCount,
   b.finalDeductedAmount)

/-- An employee bill with the today-dependent UI helper field blanked. -/
def billWithoutToday (b : EmployeeBill) : EmployeeBill :=
  { b with todayAdjustmentMap := [] }

/-- A billing result with the today-dependent UI helper fields blanked. -/
def resultWithoutToday (r : BillingResult) : BillingResult :=
  { r with employeeBills := r.employeeBills.map billWithoutToday }

/-- The snack value of units belonging to employee ids absent from the
employees argument that are left on neither ledger: per day, the paid
remainder of each unknown snack consumer. -/
def unknownPaidValue (consumptions : List Consumption) (adj : DailyAdjustmentMap)
    (knownIds : List String) : Int :=
  sumBy (fun d =>
      sumBy (fun e => sumPrices (dayPaidOf consumptions adj d e))
        ((dayEmpIds (dayUnits consumptions d)).filter (fun e => decide (e ∉ knownIds))))
    (sortedDates consumptions)

end Billing

/-! ## Billing reconciliation engine, legacy flat-count variant
(BillingService.calculateBilling with adjustments =
date -> employeeId -> count; deducts the most expensive snack units first). -/

namespace BillingFlat

/-- date -> employeeId -> count (flat adjustment schema). -/
abbrev FlatAdjustmentMap := List (String × List (String × Int))

/-- `(dailyAdjustments[date] || {})[empId] || 0`. -/
def flatAdjFor (adj : FlatAdjustmentMap) (d : String) (empId : String) : Int :=
  lookupD (lookupD adj d []) empId 0

/-- `[...snacks].sort((a,b) => b.price - a.price)`: stable descending sort
by price, modelled by insertion sort with the corresponding relation. -/
def sortSnacksDesc (snacks : List Consumption) : List Consumption :=
  snacks.insertionSort (fun a b => b.price ≤ a.price)

/-- `let deductCount = manualCount; if (deductCount < 0) deductCount = 0;
if (deductCount > totalSnacksCount) deductCount = totalSnacksCount`. -/
def clampDeduct (manualCount : Int) (totalSnacksCount : Nat) : Nat :=
  min totalSnacksCount manualCount.toNat

/-- `sortedSnacks.slice(0, deductCount)`: the deducted units are the first
(clamped) deductCount units of the descending-price sort. -/
def empDayDeductedFlat (manualCount : Int) (snacks : List Consumption) : List Consumption :=
  (sortSnacksDesc snacks).take (clampDeduct manualCount (sortSnacksDesc snacks).length)

structure DailyCompanyBill where
  date : String
  totalStaff : Nat
  actualDrinkCount : Nat
  fillers : Nat
  adjustedCount : Nat
  amount : Int
deriving DecidableEq

structure EmployeeBill where
  employee : Employee
  items : List Consumption
  originalItemCount : Nat
  originalAmount : Int
  totalDeductedCount : Nat
  totalDeductedAmount : Int
  finalPayableAmount : Int
  automatedDeductedCount : Nat
  manualAdjustmentCount : Nat
  todayAdjustmentCount : Int
  todayMaxDeductible : Nat
  finalDeductedCount : Nat
  finalDeductedAmount : Int
  canIncreaseAdjustment : Bool
  canDecreaseAdjustment : Bool
deriving DecidableEq

structure BillingResult where
  companyBillRows : List DailyCompanyBill
  employeeBills : List EmployeeBill
  totalCompanyBaseAmount : Int
  totalManualTransferAmount : Int
  grandTotalCompanyAmount : Int
deriving DecidableEq

/-- Deducted units of one employee on one day under the flat schema. -/
def dayDeductedFlatOf (consumptions : List Consumption) (adj : FlatAdjustmentMap)
    (d : String) (empId : String) : List Consumption :=
  empDayDeductedFlat (flatAdjFor adj d empId) (empDaySnacks (dayUnits consumptions d) empId)

def aggDeductedCountFlat (consumptions : List Consumption) (adj : FlatAdjustmentMap)
    (empId : String) : Nat :=
  sumBy (fun d => (dayDeductedFlatOf consumptions adj d empId).length)
    (sortedDates consumptions)

def aggDeductedAmountFlat (consumptions : List Consumption) (adj : FlatAdjustmentMap)
    (empId : String) : Int :=
  sumBy (fun d => sumPrices (dayDeductedFlatOf consumptions adj d empId))
    (sortedDates consumptions)

def companyRowFlat (activeEmployeeCount : Nat) (consumptions : List Consumption)
    (d : String) : DailyCompanyBill :=
  { date := d
    totalStaff := activeEmployeeCount
    actualDrinkCount := actualDrinkCount (dayUnits consumptions d)
    fillers := 0
    adjustedCount := actualDrinkCount (dayUnits consumptions d)
    amount := baseDrinkCost (dayUnits consumptions d) }

/-- Today's expanded snack units of one employee
(expandConsumptions(todayLogs.filter(snack and employee))). -/
def todaySnacksExpanded (consumptions : List Consumption) (today : String)
    (empId : String) : List Consumption :=
  expandConsumptions ((dayLogs consumptions today).filter
    (fun c => decide (c.itemType = .snack) && decide (c.employeeId = empId)))

def mkEmployeeBillFlat (consumptions : List Consumption) (adj : FlatAdjustmentMap)
    (today : String) (emp : Employee) : EmployeeBill :=
  { employee := emp
    items := aggItems consumptions emp.id
    originalItemCount := aggCount consumptions emp.id
    originalAmount := aggOriginalAmount consumptions emp.id
    totalDeductedCount := aggDeductedCountFlat consumptions adj emp.id
    totalDeductedAmount := aggDeductedAmountFlat consumptions adj emp.id
    finalPayableAmount :=
      max 0 (aggOriginalAmount consumptions emp.id - aggDeductedAmountFlat consumptions adj emp.id)
    automatedDeductedCount := 0
    manualAdjustmentCount := aggDeductedCountFlat consumptions adj emp.id
    todayAdjustmentCount := flatAdjFor adj today emp.id
    todayMaxDeductible := (todaySnacksExpanded consumptions today emp.id).length
    finalDeductedCount := aggDeductedCountFlat consumptions adj emp.id
    finalDeductedAmount := aggDeductedAmountFlat consumptions adj emp.id
    canIncreaseAdjustment :=
      decide (flatAdjFor adj today emp.id < ((todaySnacksExpanded consumptions today emp.id).length : Int))
    canDecreaseAdjustment := decide (0 < flatAdjFor adj today emp.id) }

/-- BillingService.calculateBilling, legacy flat-count variant. -/
def calculateBillingFlat (consumptions : List Consumption) (employees : List Employee)
    (activeEmployeeCount : Nat) (dailyAdjustments : FlatAdjustmentMap)
    (today : String) : BillingResult :=
  { companyBillRows := (sortedDates consumptions).map (companyRowFlat activeEmployeeCount consumptions)
    employeeBills :=
      (employees.map (mkEmployeeBillFlat consumptions dailyAdjustments today)).filter
        (fun b => decide (0 < b.originalItemCount))
    totalCompanyBaseAmount :=
      sumBy (·.amount) ((sortedDates consumptions).map (companyRowFlat activeEmployeeCount consumptions))
    totalManualTransferAmount :=
      sumBy (fun d =>
          sumBy (fun e => sumPrices (dayDeductedFlatOf consumptions dailyAdjustments d e))
            (dayEmpIds (dayUnits consumptions d)))
        (sortedDates consumptions)
    grandTotalCompanyAmount :=
      sumBy (·.amount) ((sortedDates consumptions).map (companyRowFlat activeEmployeeCount consumptions)) +
        sumBy (fun d =>
            sumBy (fun e => sumPrices (dayDeductedFlatOf consumptions dailyAdjustments d e))
              (dayEmpIds (dayUnits consumptions d)))
          (sortedDates consumptions) }

end BillingFlat

/-- The descending-price comparator is total (ties compare equal both
ways, as with the source's numeric comparator). -/
instance : IsTotal Consumption (fun a b => b.price ≤ a.price) :=
  ⟨fun a b => le_total b.price a.price⟩

instance : IsTrans Consumption (fun a b => b.price ≤ a.price) :=
  ⟨fun _ _ _ hab hbc => le_trans hbc hab⟩

/-! Sample data reused by concrete witness instances. -/

def sampleSnack : Consumption :=
  { id := "c1", employeeId := "e1", itemId := "s1", itemName := "Chips",
    itemType := .snack, price := 10, date := "2024-01-01", quantity := 1 }

def sampleEmp : Employee := { id := "e1", name := "Asha", isActive := true }

def sampleSnackQty2 : Consumption :=
  { id := "c1", employeeId := "e1", itemId := "s1", itemName := "Chips",
    itemType := .snack, price := 10, date := "2024-01-01", quantity := 2 }

/-! ## Helper lemmas -/

theorem mem_firstKeysAux {a : String} :
    ∀ (l seen : List String), a ∈ firstKeysAux seen l ↔ a ∈ l ∧ a ∉ seen := by
  intro l
  induction l with
  | nil => intro seen; simp [firstKeysAux]
  | cons k ks ih =>
    intro seen
    by_cases hk : k ∈ seen
    · rw [show firstKeysAux seen (k :: ks) = firstKeysAux seen ks from by
        simp [firstKeysAux, hk], ih]
      constructor
      · rintro ⟨h1, h2⟩; exact ⟨List.mem_cons_of_mem _ h1, h2⟩
      · rintro ⟨h1, h2⟩
        rcases List.mem_cons.mp h1 with rfl | h1
        · exact absurd hk h2
        · exact ⟨h1, h2⟩
    · rw [show firstKeysAux seen (k :: ks) = k :: firstKeysAux (k :: seen) ks from by
        simp [firstKeysAux, hk]]
      constructor
      · intro h
        rcases List.mem_cons.mp h with rfl | h
        · exact ⟨List.mem_cons_self _ _, hk⟩
        · rcases (ih _).mp h with ⟨h1, h2⟩
          exact ⟨List.mem_cons_of_mem _ h1, fun hs => h2 (List.mem_cons_of_mem _ hs)⟩
      · rintro ⟨h1, h2⟩
        rcases List.mem_cons.mp h1 with rfl | h1
        · exact List.mem_cons_self _ _
        · by_cases hak : a = k
          · exact hak ▸ List.mem_cons_self _ _
          · refine List.mem_cons_of_mem _ ((ih _).mpr ⟨h1, fun hs => ?_⟩)
            rcases List.mem_cons.mp hs with h | h
            · exact hak h
            · exact h2 h

theorem mem_firstKeys {a : String} {l : List String} :
    a ∈ firstKeys l ↔ a ∈ l := by
  simp [firstKeys, mem_firstKeysAux]

theorem nodup_firstKeysAux : ∀ (l seen : List String), (firstKeysAux seen l).Nodup := by
  intro l
  induction l with
  | nil => intro seen; simp [firstKeysAux]
  | cons k ks ih =>
    intro seen
    by_cases hk : k ∈ seen
    · simpa [firstKeysAux, hk] using ih seen
    · simp only [firstKeysAux, if_neg hk, List.nodup_cons]
      refine ⟨fun hmem => ?_, ih (k :: seen)⟩
      exact ((mem_firstKeysAux ks (k :: seen)).mp hmem).2 (List.mem_cons_self _ _)

theorem nodup_firstKeys (l : List String) : (firstKeys l).Nodup :=
  nodup_firstKeysAux l []

theorem sumBy_append {α M : Type} [AddCommMonoid M] (f : α → M) (l₁ l₂ : List α) :
    sumBy f (l₁ ++ l₂) = sumBy f l₁ + sumBy f l₂ := by
  simp [sumBy]

theorem sumBy_flatMap {α β M : Type} [AddCommMonoid M] (f : β → M) (g : α → List β)
    (l : List α) : sumBy f (l.flatMap g) = sumBy (fun a => sumBy f (g a)) l := by
  induction l with
  | nil => simp [sumBy]
  | cons a l ih => simp only [List.flatMap_cons, sumBy_append, ih]; simp [sumBy]

/-- Splitting a sum over a filter and its complement. -/
theorem sumBy_filter_add_not {α M : Type} [AddCommMonoid M] (f : α → M) (p : α → Bool)
    (l : List α) :
    sumBy f (l.filter p) + sumBy f (l.filter (fun a => !(p a))) = sumBy f l := by
  induction l with
  | nil => simp [sumBy]
  | cons a l ih =>
    by_cases hp : p a
    · have h1 : (a :: l).filter p = a :: l.filter p := by simp [List.filter_cons, hp]
      have h2 : (a :: l).filter (fun x => !(p x)) = l.filter (fun x => !(p x)) := by
        simp [List.filter_cons, hp]
      rw [h1, h2]
      simp only [sumBy, List.map_cons, List.sum_cons] at ih ⊢
      rw [add_assoc, ih]
    · have hp' : p a = false := by simpa using hp
      have h1 : (a :: l).filter p = l.filter p := by simp [List.filter_cons, hp']
      have h2 : (a :: l).filter (fun x => !(p x)) = a :: l.filter (fun x => !(p x)) := by
        simp [List.filter_cons, hp']
      rw [h1, h2]
      simp only [sumBy, List.map_cons, List.sum_cons] at ih ⊢
      rw [add_left_comm, ih]

/-- Summing group-by-key sums over a duplicate-free covering key list gives
the total sum. -/
theorem sumBy_partition {α M : Type} [AddCommMonoid M] (f : α → M) (key : α → String) :
    ∀ (keys : List String) (l : List α), keys.Nodup → (∀ a ∈ l, key a ∈ keys) →
    sumBy (fun k => sumBy f (l.filter (fun a => decide (key a = k)))) keys = sumBy f l := by
  intro keys
  induction keys with
  | nil =>
    intro l _ hcov
    have : l = [] := by
      cases l with
      | nil => rfl
      | cons a l => exact absurd (hcov a (List.mem_cons_self _ _)) (by simp)
    simp [this, sumBy]
  | cons k ks ih =>
    intro l hnd hcov
    have hknotin : k ∉ ks := (List.nodup_cons.mp hnd).1
    have hndks : ks.Nodup := (List.nodup_cons.mp hnd).2
    have hrest :
        sumBy (fun k' => sumBy f (l.filter (fun a => decide (key a = k')))) ks =
        sumBy (fun k' => sumBy f ((l.filter (fun a => !(decide (key a = k)))).filter
          (fun a => decide (key a = k')))) ks := by
      apply congrArg List.sum
      apply List.map_congr_left
      intro k' hk'
      have hkne : k' ≠ k := fun hc => hknotin (hc ▸ hk')
      have hfilter : l.filter (fun a => decide (key a = k')) =
          (l.filter (fun a => !(decide (key a = k)))).filter
            (fun a => decide (key a = k')) := by
        rw [List.filter_filter]
        apply List.filter_congr
        intro a _
        by_cases h : key a = k'
        · simp [h, hkne]
        · simp [h]
      rw [hfilter]
    have hcov' : ∀ a ∈ l.filter (fun a => !(decide (key a = k))), key a ∈ ks := by
      intro a ha
      rcases List.mem_filter.mp ha with ⟨hal, hne⟩
      rcases List.mem_cons.mp (hcov a hal) with h | h
      · exact absurd (by simpa using hne) (by simp [h])
      · exact h
    calc sumBy (fun k' => sumBy f (l.filter (fun a => decide (key a = k')))) (k :: ks)
        = sumBy f (l.filter (fun a => decide (key a = k))) +
          sumBy (fun k' => sumBy f (l.filter (fun a => decide (key a = k')))) ks := by
          simp [sumBy]
      _ = sumBy f (l.filter (fun a => decide (key a = k))) +
          sumBy f (l.filter (fun a => !(decide (key a = k)))) := by
          rw [hrest, ih _ hndks hcov']
      _ = sumBy f l := sumBy_filter_add_not f _ l

/-- Quantity-or-one is always positive. -/
theorem qtyOf_pos (c : Consumption) : 0 < qtyOf c := by
  unfold qtyOf
  split <;> omega

/-- The expansion of a list has exactly the same members (each unit copy is
the original record). -/
theorem mem_expandConsumptions {l : List Consumption} {u : Consumption} :
    u ∈ expandConsumptions l ↔ u ∈ l := by
  simp only [expandConsumptions, List.mem_flatMap, List.mem_replicate]
  constructor
  · rintro ⟨c, hc, _, rfl⟩; exact hc
  · intro hu
    refine ⟨u, hu, ?_, rfl⟩
    have := qtyOf_pos u
    omega

theorem mem_sortedDates {consumptions : List Consumption} {d : String} :
    d ∈ sortedDates consumptions ↔ ∃ c ∈ consumptions, dateKey c = d := by
  simp [sortedDates, List.mem_insertionSort, List.mem_dedup, List.mem_map]

/-- Membership in a day's snack units of one employee, unfolded down to the
raw consumption list. -/
theorem mem_empDaySnacks {consumptions : List Consumption} {d : String}
    {empId : String} {u : Consumption} :
    u ∈ empDaySnacks (dayUnits consumptions d) empId ↔
      u ∈ consumptions ∧ dateKey u = d ∧ u.itemType = .snack ∧ u.employeeId = empId := by
  simp only [empDaySnacks, snackUnits, dayUnits, dayLogs, List.mem_filter,
    mem_expandConsumptions, decide_eq_true_eq]
  tauto

theorem sumBy_nat_pos {α : Type} (f : α → Nat) {l : List α} {a : α}
    (ha : a ∈ l) (hf : 0 < f a) : 0 < sumBy f l := by
  have : f a ≤ sumBy f l :=
    List.single_le_sum (by intro x _; exact Nat.zero_le _) _ (List.mem_map_of_mem f ha)
  omega

theorem exists_pos_of_sumBy_nat_pos {α : Type} {f : α → Nat} {l : List α}
    (h : 0 < sumBy f l) : ∃ a ∈ l, 0 < f a := by
  by_contra hc
  push_neg at hc
  have : sumBy f l = 0 := by
    apply List.sum_eq_zero
    intro x hx
    rcases List.mem_map.mp hx with ⟨a, ha, rfl⟩
    exact Nat.le_zero.mp (hc a ha)
  omega

/-- An employee's aggregate expanded snack count is positive exactly when
some snack record of theirs is in the input. -/
theorem aggCount_pos_iff (consumptions : List Consumption) (empId : String) :
    0 < aggCount consumptions empId ↔
      ∃ c ∈ consumptions, c.itemType = .snack ∧ c.employeeId = empId := by
  constructor
  · intro hpos
    obtain ⟨d, _, hlen⟩ := exists_pos_of_sumBy_nat_pos hpos
    rcases List.exists_mem_of_length_pos hlen with ⟨u, hu⟩
    rcases mem_empDaySnacks.mp hu with ⟨hc, _, hsnack, hemp⟩
    exact ⟨u, hc, hsnack, hemp⟩
  · rintro ⟨c, hc, hsnack, hemp⟩
    apply sumBy_nat_pos _ (mem_sortedDates.mpr ⟨c, hc, rfl⟩)
    have hmem : c ∈ empDaySnacks (dayUnits consumptions (dateKey c)) empId :=
      mem_empDaySnacks.mpr ⟨hc, rfl, hsnack, hemp⟩
    exact List.length_pos_of_mem hmem

/-- A filter by a disjunction is no longer than the two separate filters
together. -/
theorem length_filter_or_le {α : Type} (p q : α → Bool) (l : List α) :
    (l.filter (fun a => p a || q a)).length ≤ (l.filter p).length + (l.filter q).length := by
  induction l with
  | nil => simp
  | cons a l ih =>
    by_cases hp : p a
    · simp only [List.filter_cons, hp, Bool.true_or, if_true, reduceIte, List.length_cons]
      by_cases hq : q a <;> simp [hq] <;> omega
    · have hp' : p a = false := by simpa using hp
      by_cases hq : q a
      · simp only [List.filter_cons, hp', hq, Bool.false_or, if_true, if_false,
          Bool.false_eq_true, reduceIte, List.length_cons]
        omega
      · have hq' : q a = false := by simpa using hq
        simp only [List.filter_cons, hp', hq', Bool.false_or, Bool.false_eq_true, reduceIte]
        exact ih

/-! ## Claim C2: tally gap bound -/

namespace Tally

/-- C2 counterexample: on a day where two distinct employees each took a
drink but the active headcount is 1, the tally calculator reports
adjustedTeaCount = 2, which exceeds the active headcount, so the claimed
bound adjustedDrinkCount ≤ activeHeadcount fails. -/
theorem tally_gap_bound_cex :
    ¬ ((computeTally "2024-01-01"
        [{ id := "c1", employeeId := "e1", itemId := "i1", itemName := "Tea",
           itemType := .drink, price := 10, date := "2024-01-01", quantity := 1 },
         { id := "c2", employeeId := "e2", itemId := "i1", itemName := "Tea",
           itemType := .drink, price := 10, date := "2024-01-01", quantity := 1 }]
        1 []).adjustedTeaCount ≤
      (computeTally "2024-01-01"
        [{ id := "c1", employeeId := "e1", itemId := "i1", itemName := "Tea",
           itemType := .drink, price := 10, date := "2024-01-01", quantity := 1 },
         { id := "c2", employeeId := "e2", itemId := "i1", itemName := "Tea",
           itemType := .drink, price := 10, date := "2024-01-01", quantity := 1 }]
        1 []).totalEmployees) := by
  decide

/-- C2 (amended): the tally calculator's adjusted drink count never falls
below the actual distinct drink-consumer count, and never exceeds the
maximum of the active headcount and the actual count: gap filling itself
never overshoots the target, but when the actual drink consumers already
exceed the headcount the adjusted count stays at the (over-target) actual
count. -/
theorem tally_gap_bound_amended (date : String) (consumptions : List Consumption)
    (activeEmployeeCount : Nat) (employees : List Employee) :
    (computeTally date consumptions activeEmployeeCount employees).actualTeaCount ≤
      (computeTally date consumptions activeEmployeeCount employees).adjustedTeaCount ∧
    (computeTally date consumptions activeEmployeeCount employees).adjustedTeaCount ≤
      max (computeTally date consumptions activeEmployeeCount employees).totalEmployees
        (computeTally date consumptions activeEmployeeCount employees).actualTeaCount := by
  have h1 : filledAmount consumptions activeEmployeeCount ≤
      initialGap consumptions activeEmployeeCount := Nat.min_le_left _ _
  simp only [computeTally, adjustedTeaCount, initialGap] at *
  omega

/-- C3 counterexample: a single employee with two snack units and no drink
qualifies as both snack-only and extra-snack; the code counts them twice
(availableFillers = 2) and with a gap of 3 fills 2, whereas the claimed
union-of-ids filler pool has size 1 and would fill only 1. -/
theorem tally_filler_union_cex :
    (computeTally "2024-01-01"
        [{ id := "c1", employeeId := "e1", itemId := "s1", itemName := "Chips",
           itemType := .snack, price := 5, date := "2024-01-01", quantity := 2 }]
        3 []).gapFilled = 2 ∧
    fillerUnionCount
        [{ id := "c1", employeeId := "e1", itemId := "s1", itemName := "Chips",
           itemType := .snack, price := 5, date := "2024-01-01", quantity := 2 }] = 1 ∧
    (computeTally "2024-01-01"
        [{ id := "c1", employeeId := "e1", itemId := "s1", itemName := "Chips",
           itemType := .snack, price := 5, date := "2024-01-01", quantity := 2 }]
        3 []).gapFilled ≠
      min (initialGap
        [{ id := "c1", employeeId := "e1", itemId := "s1", itemName := "Chips",
           itemType := .snack, price := 5, date := "2024-01-01", quantity := 2 }] 3)
        (fillerUnionCount
        [{ id := "c1", employeeId := "e1", itemId := "s1", itemName := "Chips",
           itemType := .snack, price := 5, date := "2024-01-01", quantity := 2 }]) := by
  refine ⟨by decide, by decide, by decide⟩

/-- C3 (amended): the available-filler count used to compute gapFilled is
the sum of the lengths of the snack-only list and the extra-snack list, so
an employee qualifying under both conditions is counted twice; the union of
qualifying employee ids is only a lower bound on that pool. -/
theorem tally_filler_pool_amended (date : String) (consumptions : List Consumption)
    (activeEmployeeCount : Nat) (employees : List Employee) :
    (computeTally date consumptions activeEmployeeCount employees).gapFilled =
      min (initialGap consumptions activeEmployeeCount)
        ((snackOnlyList consumptions).length + (extraSnackList consumptions).length) ∧
    fillerUnionCount consumptions ≤
      (snackOnlyList consumptions).length + (extraSnackList consumptions).length := by
  constructor
  · rfl
  · exact length_filter_or_le _ _ _

end Tally

/-! ## Claims C4, C7, C8, C9 on the per-item billing engine -/

namespace Billing

/-- C4: for every day, employee and item, the deducted snack-unit count is
exactly min(unitsConsumed, max(requested, 0)); hence it is nonnegative, at
most the units consumed, and at most the requested adjustment whenever the
requested adjustment is nonnegative (negative or oversized entries are
clamped, never an error), and a missing adjustment entry is read as a
requested adjustment of 0. -/
theorem monotonic_clamp (consumptions : List Consumption) (adj : DailyAdjustmentMap)
    (d : String) (empId : String) (itemId : String) :
    dayEmpItemDeductedCount consumptions adj d empId itemId =
      min (adjCountFor (empAdjOf (dayAdjOf adj d) empId) itemId).toNat
        (dayEmpItemUnits consumptions d empId itemId) ∧
    dayEmpItemDeductedCount consumptions adj d empId itemId ≤
      dayEmpItemUnits consumptions d empId itemId ∧
    (0 ≤ adjCountFor (empAdjOf (dayAdjOf adj d) empId) itemId →
      (dayEmpItemDeductedCount consumptions adj d empId itemId : Int) ≤
        min (adjCountFor (empAdjOf (dayAdjOf adj d) empId) itemId)
          (dayEmpItemUnits consumptions d empId itemId)) ∧
    ((empAdjOf (dayAdjOf adj d) empId).find? (fun p => decide (p.1 = itemId)) = none →
      adjCountFor (empAdjOf (dayAdjOf adj d) empId) itemId = 0 ∧
      dayEmpItemDeductedCount consumptions adj d empId itemId = 0) := by
  have hlen : dayEmpItemDeductedCount consumptions adj d empId itemId =
      min (adjCountFor (empAdjOf (dayAdjOf adj d) empId) itemId).toNat
        (dayEmpItemUnits consumptions d empId itemId) := by
    simp [dayEmpItemDeductedCount, dayEmpItemUnits, List.length_take]
  refine ⟨hlen, ?_, ?_, ?_⟩
  · rw [hlen]; exact Nat.min_le_right _ _
  · intro hreq
    rw [hlen]
    have h1 : min (adjCountFor (empAdjOf (dayAdjOf adj d) empId) itemId).toNat
        (dayEmpItemUnits consumptions d empId itemId) ≤
        (adjCountFor (empAdjOf (dayAdjOf adj d) empId) itemId).toNat := Nat.min_le_left _ _
    have h2 : min (adjCountFor (empAdjOf (dayAdjOf adj d) empId) itemId).toNat
        (dayEmpItemUnits consumptions d empId itemId) ≤
        dayEmpItemUnits consumptions d empId itemId := Nat.min_le_right _ _
    have h3 : ((adjCountFor (empAdjOf (dayAdjOf adj d) empId) itemId).toNat : Int) =
        adjCountFor (empAdjOf (dayAdjOf adj d) empId) itemId := Int.toNat_of_nonneg hreq
    refine le_min ?_ ?_
    · calc (↑(min (adjCountFor (empAdjOf (dayAdjOf adj d) empId) itemId).toNat
            (dayEmpItemUnits consumptions d empId itemId)) : Int)
          ≤ ((adjCountFor (empAdjOf (dayAdjOf adj d) empId) itemId).toNat : Int) := by
            exact_mod_cast h1
        _ = adjCountFor (empAdjOf (dayAdjOf adj d) empId) itemId := h3
    · exact_mod_cast h2
  · intro hnone
    have hz : adjCountFor (empAdjOf (dayAdjOf adj d) empId) itemId = 0 := by
      simp [adjCountFor, lookupD, hnone]
    exact ⟨hz, by rw [hlen, hz]; simp⟩

/-- C4 witness: concrete instantiation of the clamp theorem, discharging
its embedded hypothesis at a requested adjustment of 2 against 1 consumed
unit of the item. -/
theorem monotonic_clamp_witness :
    (dayEmpItemDeductedCount [sampleSnack] [("2024-01-01", [("e1", [("s1", 2)])])]
        "2024-01-01" "e1" "s1" : Int) ≤
      min (adjCountFor (empAdjOf (dayAdjOf [("2024-01-01", [("e1", [("s1", 2)])])]
        "2024-01-01") "e1") "s1")
        (dayEmpItemUnits [sampleSnack] "2024-01-01" "e1" "s1") :=
  (monotonic_clamp [sampleSnack] [("2024-01-01", [("e1", [("s1", 2)])])]
    "2024-01-01" "e1" "s1").2.2.1 (by decide)

/-- C9: every employee bill returned by calculateBilling has a nonnegative
final payable amount, whatever the inputs. -/
theorem final_payable_nonneg (consumptions : List Consumption) (employees : List Employee)
    (activeEmployeeCount : Nat) (adj : DailyAdjustmentMap) (today : String) :
    ∀ b ∈ (calculateBilling consumptions employees activeEmployeeCount adj
        today).employeeBills, 0 ≤ b.finalPayableAmount := by
  intro b hb
  rcases List.mem_filter.mp hb with ⟨hb', _⟩
  rcases List.mem_map.mp hb' with ⟨emp, _, rfl⟩
  exact le_max_left 0 _

/-- C9 witness: the nonnegativity theorem applied to the concrete bill of a
one-snack input. -/
theorem final_payable_nonneg_witness :
    0 ≤ ((calculateBilling [sampleSnack] [sampleEmp] 1 [] "2024-01-01").employeeBills.headD
      (mkEmployeeBill [sampleSnack] [] "2024-01-01" sampleEmp)).finalPayableAmount :=
  final_payable_nonneg [sampleSnack] [sampleEmp] 1 [] "2024-01-01" _ (by decide)

/-- C7 counterexample: calculateBilling reads the ambient current date; two
calls with identical arguments made on different days return different
results (the per-bill todayAdjustmentMap field differs), so the output is
not determined by the argument list alone. -/
theorem billing_deterministic_cex :
    calculateBilling [sampleSnack] [sampleEmp] 1
        [("2024-01-01", [("e1", [("s1", 1)])])] "2024-01-01" ≠
      calculateBilling [sampleSnack] [sampleEmp] 1
        [("2024-01-01", [("e1", [("s1", 1)])])] "2024-01-02" := by
  decide

/-- C7 (amended): calculateBilling is a pure function of its arguments plus
the current date it reads from the clock; with the clock reading fixed any
two calls agree, and every field except the per-bill todayAdjustmentMap UI
helper is independent of the clock reading. -/
theorem billing_deterministic_amended (consumptions : List Consumption)
    (employees : List Employee) (activeEmployeeCount : Nat)
    (adj : DailyAdjustmentMap) (today1 today2 : String) :
    resultWithoutToday (calculateBilling consumptions employees activeEmployeeCount
        adj today1) =
      resultWithoutToday (calculateBilling consumptions employees activeEmployeeCount
        adj today2) := by
  have hbills : ∀ emps : List Employee,
      ((emps.map (mkEmployeeBill consumptions adj today1)).filter
        (fun b => decide (0 < b.originalItemCount))).map billWithoutToday =
      ((emps.map (mkEmployeeBill consumptions adj today2)).filter
        (fun b => decide (0 < b.originalItemCount))).map billWithoutToday := by
    intro emps
    induction emps with
    | nil => rfl
    | cons e es ih =>
      simp only [List.map_cons, List.filter_cons]
      by_cases hc : 0 < (mkEmployeeBill consumptions adj today1 e).originalItemCount
      · have hc2 : 0 < (mkEmployeeBill consumptions adj today2 e).originalItemCount := hc
        rw [if_pos (decide_eq_true hc), if_pos (decide_eq_true hc2), List.map_cons,
          List.map_cons, ih]
        rfl
      · have hc2 : ¬ 0 < (mkEmployeeBill consumptions adj today2 e).originalItemCount := hc
        rw [if_neg (by simpa using hc), if_neg (by simpa using hc2)]
        exact ih
  simp only [resultWithoutToday, calculateBilling, employeeBills]
  rw [hbills employees]

/-- C8: an employee from the employees argument appears in the returned
employeeBills exactly when at least one snack unit of theirs occurs among
the input consumptions; employees with no snack consumption are omitted
rather than listed as zero rows. -/
theorem bills_iff_snack (consumptions : List Consumption) (employees : List Employee)
    (activeEmployeeCount : Nat) (adj : DailyAdjustmentMap) (today : String)
    (emp : Employee) (hemp : emp ∈ employees) :
    (∃ b ∈ (calculateBilling consumptions employees activeEmployeeCount adj
        today).employeeBills, b.employee = emp) ↔
    (∃ c ∈ consumptions, c.itemType = .snack ∧ c.employeeId = emp.id) := by
  rw [show (∃ c ∈ consumptions, c.itemType = .snack ∧ c.employeeId = emp.id) ↔
      0 < aggCount consumptions emp.id from (aggCount_pos_iff consumptions emp.id).symm]
  constructor
  · rintro ⟨b, hb, hbe⟩
    rcases List.mem_filter.mp hb with ⟨hb', hcount⟩
    rcases List.mem_map.mp hb' with ⟨e', _, rfl⟩
    have he' : e' = emp := hbe
    subst he'
    simpa [mkEmployeeBill] using hcount
  · intro hpos
    refine ⟨mkEmployeeBill consumptions adj today emp, ?_, rfl⟩
    exact List.mem_filter.mpr ⟨List.mem_map.mpr ⟨emp, hemp, rfl⟩, by
      simpa [mkEmployeeBill] using hpos⟩

/-- C8 witness: with one snack record and its employee present, the bill for
that employee exists, by the forward use of the characterisation. -/
theorem bills_iff_snack_witness :
    sampleEmp ∈ [sampleEmp] ∧
    (∃ b ∈ (calculateBilling [sampleSnack] [sampleEmp] 1 [] "2024-01-01").employeeBills,
      b.employee = sampleEmp) :=
  ⟨by decide, (bills_iff_snack [sampleSnack] [sampleEmp] 1 [] "2024-01-01" sampleEmp
    (by decide)).mpr (by decide)⟩

end Billing

/-! ## Conservation machinery -/

theorem sumBy_map_list {α β M : Type} [AddCommMonoid M] (f : β → M) (g : α → β)
    (l : List α) : sumBy f (l.map g) = sumBy (fun a => f (g a)) l := by
  simp only [sumBy, List.map_map]
  rfl

theorem sumBy_perm {α M : Type} [AddCommMonoid M] (f : α → M) {l₁ l₂ : List α}
    (h : l₁.Perm l₂) : sumBy f l₁ = sumBy f l₂ := (h.map f).sum_eq

theorem sumBy_eq_zero {α M : Type} [AddCommMonoid M] {f : α → M} {l : List α}
    (h : ∀ a ∈ l, f a = 0) : sumBy f l = 0 := by
  apply List.sum_eq_zero
  intro x hx
  rcases List.mem_map.mp hx with ⟨a, ha, rfl⟩
  exact h a ha

theorem sumBy_add_distrib {α M : Type} [AddCommMonoid M] (f g : α → M) (l : List α) :
    sumBy (fun a => f a + g a) l = sumBy f l + sumBy g l :=
  List.sum_map_add

theorem sumBy_congr {α M : Type} [AddCommMonoid M] {f g : α → M} {l : List α}
    (h : ∀ a ∈ l, f a = g a) : sumBy f l = sumBy g l := by
  unfold sumBy
  rw [List.map_congr_left h]

/-- Exchanging two nested list sums. -/
theorem sumBy_comm {α β M : Type} [AddCommMonoid M] (f : α → β → M)
    (l₁ : List α) (l₂ : List β) :
    sumBy (fun a => sumBy (f a) l₂) l₁ = sumBy (fun b => sumBy (fun a => f a b) l₁) l₂ := by
  induction l₁ with
  | nil => simp [sumBy]
  | cons a l ih =>
    calc sumBy (fun a => sumBy (f a) l₂) (a :: l)
        = sumBy (f a) l₂ + sumBy (fun a => sumBy (f a) l₂) l := by simp [sumBy]
      _ = sumBy (f a) l₂ + sumBy (fun b => sumBy (fun a => f a b) l) l₂ := by rw [ih]
      _ = sumBy (fun b => f a b + sumBy (fun a => f a b) l) l₂ := by
          rw [sumBy_add_distrib]
      _ = sumBy (fun b => sumBy (fun a => f a b) (a :: l)) l₂ := by
          apply sumBy_congr; intro b _; simp [sumBy]

/-- Dropping filtered-out elements whose contribution is zero. -/
theorem sumBy_filter_of_zero {α M : Type} [AddCommMonoid M] (f : α → M) (p : α → Bool)
    (l : List α) (h : ∀ a ∈ l, ¬ p a = true → f a = 0) :
    sumBy f (l.filter p) = sumBy f l := by
  have hz : sumBy f (l.filter (fun a => !(p a))) = 0 := by
    apply sumBy_eq_zero
    intro a ha
    rcases List.mem_filter.mp ha with ⟨hal, hpa⟩
    exact h a hal (by simpa using hpa)
  have := sumBy_filter_add_not f p l
  rw [hz, add_zero] at this
  exact this

theorem sumPrices_take_drop (n : Nat) (l : List Consumption) :
    sumPrices (l.take n) + sumPrices (l.drop n) = sumPrices l := by
  simp only [sumPrices, sumBy, List.map_take, List.map_drop]
  exact List.sum_take_add_sum_drop _ _

theorem sumPrices_nonneg {l : List Consumption} (h : ∀ u ∈ l, 0 ≤ u.price) :
    0 ≤ sumPrices l := by
  apply List.sum_nonneg
  intro x hx
  rcases List.mem_map.mp hx with ⟨u, hu, rfl⟩
  exact h u hu

/-- Expansion commutes with any record-level filter (each unit copy equals
its source record). -/
theorem filter_expandConsumptions (p : Consumption → Bool) (l : List Consumption) :
    expandConsumptions (l.filter p) = (expandConsumptions l).filter p := by
  induction l with
  | nil => rfl
  | cons c l ih =>
    have hrep : ∀ n : Nat, (List.replicate n c).filter p =
        if p c then List.replicate n c else [] := by
      intro n
      induction n with
      | zero => simp
      | succ n ihn =>
        simp only [List.replicate_succ, List.filter_cons, ihn]
        by_cases hc : p c <;> simp [hc]
    by_cases hc : p c
    · simp only [expandConsumptions, List.filter_cons, hc, if_true, reduceIte,
        List.flatMap_cons, List.filter_append, hrep]
      rw [← expandConsumptions, ← expandConsumptions, ih]
    · have hc' : p c = false := by simpa using hc
      simp only [expandConsumptions, List.filter_cons, hc', Bool.false_eq_true, if_false,
        reduceIte, List.flatMap_cons, List.filter_append, hrep]
      rw [← expandConsumptions, ← expandConsumptions, ih]
      simp

/-- The units of a day are the day-key filter of the full expansion. -/
theorem dayUnits_eq_filter (consumptions : List Consumption) (d : String) :
    dayUnits consumptions d =
      (expandConsumptions consumptions).filter (fun u => decide (dateKey u = d)) := by
  rw [dayUnits, dayLogs, filter_expandConsumptions]

theorem nodup_sortedDates (consumptions : List Consumption) :
    (sortedDates consumptions).Nodup :=
  (List.perm_insertionSort _ _).symm.nodup (List.nodup_dedup _)

/-- Summing any unit-level statistic day by day covers every expanded unit
exactly once. -/
theorem sumBy_days_units {M : Type} [AddCommMonoid M] (f : Consumption → M)
    (consumptions : List Consumption) :
    sumBy (fun d => sumBy f (dayUnits consumptions d)) (sortedDates consumptions) =
      sumBy f (expandConsumptions consumptions) := by
  have hcov : ∀ u ∈ expandConsumptions consumptions, dateKey u ∈ sortedDates consumptions := by
    intro u hu
    exact mem_sortedDates.mpr ⟨u, mem_expandConsumptions.mp hu, rfl⟩
  have := sumBy_partition f dateKey (sortedDates consumptions)
    (expandConsumptions consumptions) (nodup_sortedDates consumptions) hcov
  calc sumBy (fun d => sumBy f (dayUnits consumptions d)) (sortedDates consumptions)
      = sumBy (fun d => sumBy f ((expandConsumptions consumptions).filter
          (fun u => decide (dateKey u = d)))) (sortedDates consumptions) := by
        apply sumBy_congr; intro d _; rw [dayUnits_eq_filter]
    _ = sumBy f (expandConsumptions consumptions) := this

/-- The total expanded value is the sum of price times (quantity or one). -/
theorem sumPrices_expand (l : List Consumption) :
    sumPrices (expandConsumptions l) = sumBy (fun c => c.price * (qtyOf c : Int)) l := by
  induction l with
  | nil => rfl
  | cons c l ih =>
    simp only [expandConsumptions, List.flatMap_cons] at *
    rw [show sumPrices (List.replicate (qtyOf c) c ++ l.flatMap
        (fun log => List.replicate (qtyOf log) log)) =
      sumPrices (List.replicate (qtyOf c) c) + sumPrices (l.flatMap
        (fun log => List.replicate (qtyOf log) log)) from sumBy_append _ _ _, ih]
    have hrep : sumPrices (List.replicate (qtyOf c) c) = c.price * (qtyOf c : Int) := by
      simp only [sumPrices, sumBy, List.map_replicate, List.sum_replicate, nsmul_eq_mul]
      ring
    rw [hrep]
    simp [sumBy]

theorem sumBy_sub_distrib {α M : Type} [AddCommGroup M] (f g : α → M) (l : List α) :
    sumBy (fun a => f a - g a) l = sumBy f l - sumBy g l := by
  induction l with
  | nil => simp [sumBy]
  | cons a l ih =>
    simp only [sumBy, List.map_cons, List.sum_cons] at ih ⊢
    rw [ih]
    abel

theorem sumBy_nat_eq_zero {α : Type} {f : α → Nat} {l : List α}
    (h : sumBy f l = 0) : ∀ a ∈ l, f a = 0 := by
  intro a ha
  have : f a ≤ sumBy f l :=
    List.single_le_sum (fun x _ => Nat.zero_le _) _ (List.mem_map_of_mem f ha)
  omega

theorem qtyOf_eq_quantity {c : Consumption} (h : 1 ≤ c.quantity) : qtyOf c = c.quantity := by
  unfold qtyOf
  split
  · omega
  · rfl

namespace Billing

theorem empDayDeducted_nil (empAdj : ItemAdjMap) : empDayDeducted empAdj [] = [] := rfl

theorem empDayPaid_nil (empAdj : ItemAdjMap) : empDayPaid empAdj [] = [] := rfl

/-- The take/drop split per item group partitions the value of an
employee's snack units for one day: deducted plus paid equals original. -/
theorem empDay_split (empAdj : ItemAdjMap) (snacks : List Consumption) :
    sumPrices (empDayDeducted empAdj snacks) + sumPrices (empDayPaid empAdj snacks) =
      sumPrices snacks := by
  have hd : sumPrices (empDayDeducted empAdj snacks) =
      sumBy (fun i => sumPrices ((itemGroup snacks i).take (adjCountFor empAdj i).toNat))
        (empItemIds snacks) := sumBy_flatMap _ _ _
  have hp : sumPrices (empDayPaid empAdj snacks) =
      sumBy (fun i => sumPrices ((itemGroup snacks i).drop (adjCountFor empAdj i).toNat))
        (empItemIds snacks) := sumBy_flatMap _ _ _
  rw [hd, hp, ← sumBy_add_distrib]
  have hsplit : sumBy (fun i =>
        sumPrices ((itemGroup snacks i).take (adjCountFor empAdj i).toNat) +
        sumPrices ((itemGroup snacks i).drop (adjCountFor empAdj i).toNat))
      (empItemIds snacks) =
      sumBy (fun i => sumPrices (itemGroup snacks i)) (empItemIds snacks) := by
    apply sumBy_congr
    intro i _
    exact sumPrices_take_drop _ _
  rw [hsplit]
  exact sumBy_partition (·.price) (·.itemId) (empItemIds snacks) snacks
    (nodup_firstKeys _) (fun u hu => mem_firstKeys.mpr (List.mem_map_of_mem _ hu))

theorem itemType_not_drink_eq_snack (u : Consumption) :
    (!(decide (u.itemType = .drink))) = decide (u.itemType = .snack) := by
  cases h : u.itemType <;> simp [h]

/-- A day's unit value splits into drinks and snacks. -/
theorem day_type_split (units : List Consumption) :
    sumPrices units = baseDrinkCost units + sumPrices (snackUnits units) := by
  have h := sumBy_filter_add_not (·.price) (fun u => decide (u.itemType = .drink)) units
  have hsn : units.filter (fun u => !(decide (u.itemType = .drink))) = snackUnits units := by
    unfold snackUnits
    apply List.filter_congr
    intro u _
    exact itemType_not_drink_eq_snack u
  rw [hsn] at h
  exact h.symm

/-- A day's snack value splits over the snack consumers of the day. -/
theorem day_emp_split (units : List Consumption) :
    sumPrices (snackUnits units) =
      sumBy (fun e => sumPrices (empDaySnacks units e)) (dayEmpIds units) := by
  have h := sumBy_partition (·.price) (·.employeeId) (dayEmpIds units) (snackUnits units)
    (nodup_firstKeys _) (fun u hu => mem_firstKeys.mpr (List.mem_map_of_mem _ hu))
  exact h.symm

theorem empDaySnacks_eq_nil {units : List Consumption} {e : String}
    (h : e ∉ dayEmpIds units) : empDaySnacks units e = [] := by
  rw [empDaySnacks, List.filter_eq_nil_iff]
  intro u hu
  simp only [decide_eq_true_eq]
  intro heq
  exact h (by rw [dayEmpIds]; exact mem_firstKeys.mpr (List.mem_map.mpr ⟨u, hu, heq⟩))

/-- Full value split of one day: base drink cost, manually moved snack
cost, and the per-employee paid remainders. -/
theorem day_full_split (dayAdj : EmpAdjMap) (units : List Consumption) :
    sumPrices units = baseDrinkCost units + dayManualAddedCost dayAdj units +
      sumBy (fun e => sumPrices (empDayPaid (empAdjOf dayAdj e) (empDaySnacks units e)))
        (dayEmpIds units) := by
  rw [day_type_split, day_emp_split]
  have h : sumBy (fun e => sumPrices (empDaySnacks units e)) (dayEmpIds units) =
      dayManualAddedCost dayAdj units +
      sumBy (fun e => sumPrices (empDayPaid (empAdjOf dayAdj e) (empDaySnacks units e)))
        (dayEmpIds units) := by
    rw [dayManualAddedCost, ← sumBy_add_distrib]
    apply sumBy_congr
    intro e _
    exact (empDay_split _ _).symm
  rw [h, add_assoc]

/-- Splitting the day's paid remainders into known and unknown employee
ids. -/
theorem day_paid_split (consumptions : List Consumption) (adj : DailyAdjustmentMap)
    (ids : List String) (d : String) :
    sumBy (fun e => sumPrices (dayPaidOf consumptions adj d e))
        (dayEmpIds (dayUnits consumptions d)) =
      sumBy (fun e => sumPrices (dayPaidOf consumptions adj d e))
        ((dayEmpIds (dayUnits consumptions d)).filter (fun e => decide (e ∈ ids))) +
      sumBy (fun e => sumPrices (dayPaidOf consumptions adj d e))
        ((dayEmpIds (dayUnits consumptions d)).filter (fun e => decide (e ∉ ids))) := by
  have h := sumBy_filter_add_not (fun e => sumPrices (dayPaidOf consumptions adj d e))
    (fun e => decide (e ∈ ids)) (dayEmpIds (dayUnits consumptions d))
  have hco : (dayEmpIds (dayUnits consumptions d)).filter (fun e => !(decide (e ∈ ids))) =
      (dayEmpIds (dayUnits consumptions d)).filter (fun e => decide (e ∉ ids)) := by
    apply List.filter_congr
    intro e _
    simp
  rw [hco] at h
  exact h.symm

/-- The known part of a day's paid remainders equals the sum over the
(duplicate-free) known id list: ids without snack units that day
contribute zero. -/
theorem day_paid_known (consumptions : List Consumption) (adj : DailyAdjustmentMap)
    (d : String) (ids : List String) (hnodup : ids.Nodup) :
    sumBy (fun e => sumPrices (dayPaidOf consumptions adj d e))
        ((dayEmpIds (dayUnits consumptions d)).filter (fun e => decide (e ∈ ids))) =
    sumBy (fun e => sumPrices (dayPaidOf consumptions adj d e)) ids := by
  have hzero : ∀ e ∈ ids,
      ¬ ((fun e => decide (e ∈ dayEmpIds (dayUnits consumptions d))) e = true) →
      sumPrices (dayPaidOf consumptions adj d e) = 0 := by
    intro e _ hnotin
    have hnil : empDaySnacks (dayUnits consumptions d) e = [] :=
      empDaySnacks_eq_nil (by simpa using hnotin)
    rw [dayPaidOf, hnil, empDayPaid_nil]
    rfl
  rw [← sumBy_filter_of_zero (fun e => sumPrices (dayPaidOf consumptions adj d e))
    (fun e => decide (e ∈ dayEmpIds (dayUnits consumptions d))) ids hzero]
  apply sumBy_perm
  have h1 : ((dayEmpIds (dayUnits consumptions d)).filter
      (fun e => decide (e ∈ ids))).Nodup := (nodup_firstKeys _).filter _
  have h2 : (ids.filter
      (fun e => decide (e ∈ dayEmpIds (dayUnits consumptions d)))).Nodup := hnodup.filter _
  refine (List.perm_ext_iff_of_nodup h1 h2).mpr ?_
  intro a
  simp only [List.mem_filter, decide_eq_true_eq]
  tauto

theorem mem_empDayPaid_sub {empAdj : ItemAdjMap} {snacks : List Consumption}
    {u : Consumption} (hu : u ∈ empDayPaid empAdj snacks) : u ∈ snacks := by
  rcases List.mem_flatMap.mp hu with ⟨i, _, hmem⟩
  exact (List.mem_filter.mp (List.mem_of_mem_drop hmem)).1

theorem sumBy_int_nonneg {α : Type} (f : α → Int) {l : List α}
    (h : ∀ a ∈ l, 0 ≤ f a) : 0 ≤ sumBy f l := by
  apply List.sum_nonneg
  intro x hx
  rcases List.mem_map.mp hx with ⟨a, ha, rfl⟩
  exact h a ha

/-- Original minus deducted equals the paid remainder, day by day. -/
theorem agg_value_eq_paid (consumptions : List Consumption) (adj : DailyAdjustmentMap)
    (empId : String) :
    aggOriginalAmount consumptions empId - aggDeductedAmount consumptions adj empId =
      sumBy (fun d => sumPrices (dayPaidOf consumptions adj d empId))
        (sortedDates consumptions) := by
  rw [aggOriginalAmount, aggDeductedAmount, ← sumBy_sub_distrib]
  apply sumBy_congr
  intro d _
  have h := empDay_split (empAdjOf (dayAdjOf adj d) empId)
    (empDaySnacks (dayUnits consumptions d) empId)
  rw [dayDeductedOf, dayPaidOf]
  omega

theorem dayPaid_nonneg {consumptions : List Consumption} {adj : DailyAdjustmentMap}
    (hpos : ∀ c ∈ consumptions, 0 ≤ c.price) (d : String) (empId : String) :
    0 ≤ sumPrices (dayPaidOf consumptions adj d empId) := by
  apply sumPrices_nonneg
  intro u hu
  exact hpos u (mem_empDaySnacks.mp (mem_empDayPaid_sub hu)).1

theorem agg_zero_of_count_zero (consumptions : List Consumption) (adj : DailyAdjustmentMap)
    (empId : String) (h : aggCount consumptions empId = 0) :
    aggOriginalAmount consumptions empId = 0 ∧ aggDeductedAmount consumptions adj empId = 0 := by
  have hlen := sumBy_nat_eq_zero h
  constructor
  · apply sumBy_eq_zero
    intro d hd
    have hnil : empDaySnacks (dayUnits consumptions d) empId = [] :=
      List.length_eq_zero.mp (hlen d hd)
    rw [hnil]
    rfl
  · apply sumBy_eq_zero
    intro d hd
    have hnil : empDaySnacks (dayUnits consumptions d) empId = [] :=
      List.length_eq_zero.mp (hlen d hd)
    rw [dayDeductedOf, hnil, empDayDeducted_nil]
    rfl

/-- The payable column of the returned bills sums like the unfiltered
per-employee aggregates: the filtered-out zero-count bills pay zero. -/
theorem bills_paysum (consumptions : List Consumption) (employees : List Employee)
    (adj : DailyAdjustmentMap) (today : String) :
    sumBy (·.finalPayableAmount) (employeeBills consumptions employees adj today) =
      sumBy (fun emp => max 0 (aggOriginalAmount consumptions emp.id -
        aggDeductedAmount consumptions adj emp.id)) employees := by
  rw [employeeBills, sumBy_filter_of_zero]
  · rw [sumBy_map_list]
    rfl
  · intro b hb hnotp
    rcases List.mem_map.mp hb with ⟨emp, _, rfl⟩
    have hz : aggCount consumptions emp.id = 0 := by
      have hn := hnotp
      simp only [mkEmployeeBill, decide_eq_true_eq] at hn
      omega
    obtain ⟨h1, h2⟩ := agg_zero_of_count_zero consumptions adj emp.id hz
    show max 0 (aggOriginalAmount consumptions emp.id -
      aggDeductedAmount consumptions adj emp.id) = 0
    rw [h1, h2]
    rfl

/-- Generalised conservation: the company grand total plus all employee
payables plus the paid remainders of snack consumers unknown to the
employees argument account for the entire expanded consumption value. -/
theorem conservation_general (consumptions : List Consumption) (employees : List Employee)
    (activeEmployeeCount : Nat) (adj : DailyAdjustmentMap) (today : String)
    (hnodup : (employees.map (·.id)).Nodup)
    (hpos : ∀ c ∈ consumptions, 0 ≤ c.price) :
    (calculateBilling consumptions employees activeEmployeeCount adj
        today).grandTotalCompanyAmount +
      sumBy (·.finalPayableAmount)
        (calculateBilling consumptions employees activeEmployeeCount adj
          today).employeeBills +
      unknownPaidValue consumptions adj (employees.map (·.id)) =
      sumPrices (expandConsumptions consumptions) := by
  have hgrand : (calculateBilling consumptions employees activeEmployeeCount adj
      today).grandTotalCompanyAmount =
      sumBy (fun d => baseDrinkCost (dayUnits consumptions d) +
        dayManualAddedCost (dayAdjOf adj d) (dayUnits consumptions d))
        (sortedDates consumptions) := by
    show sumBy (·.totalDailyCost) (companyRows adj activeEmployeeCount consumptions) = _
    rw [companyRows, sumBy_map_list]
    rfl
  have hpay : sumBy (·.finalPayableAmount)
      (calculateBilling consumptions employees activeEmployeeCount adj
        today).employeeBills =
      sumBy (fun e => sumBy (fun d => sumPrices (dayPaidOf consumptions adj d e))
        (sortedDates consumptions)) (employees.map (·.id)) := by
    show sumBy (·.finalPayableAmount) (employeeBills consumptions employees adj today) = _
    rw [bills_paysum, sumBy_map_list]
    apply sumBy_congr
    intro emp _
    rw [← agg_value_eq_paid]
    apply max_eq_right
    rw [agg_value_eq_paid]
    apply sumBy_int_nonneg
    intro d _
    exact dayPaid_nonneg hpos d emp.id
  have htotal : sumPrices (expandConsumptions consumptions) =
      sumBy (fun d => baseDrinkCost (dayUnits consumptions d) +
        dayManualAddedCost (dayAdjOf adj d) (dayUnits consumptions d) +
        sumBy (fun e => sumPrices (dayPaidOf consumptions adj d e))
          (dayEmpIds (dayUnits consumptions d))) (sortedDates consumptions) := by
    rw [show sumPrices (expandConsumptions consumptions) =
      sumBy (·.price) (expandConsumptions consumptions) from rfl,
      ← sumBy_days_units (·.price) consumptions]
    apply sumBy_congr
    intro d _
    exact day_full_split (dayAdjOf adj d) (dayUnits consumptions d)
  have hdaysplit : sumBy (fun d =>
      sumBy (fun e => sumPrices (dayPaidOf consumptions adj d e))
        (dayEmpIds (dayUnits consumptions d))) (sortedDates consumptions) =
      sumBy (fun d => sumBy (fun e => sumPrices (dayPaidOf consumptions adj d e))
        (employees.map (·.id))) (sortedDates consumptions) +
      unknownPaidValue consumptions adj (employees.map (·.id)) := by
    rw [unknownPaidValue, ← sumBy_add_distrib]
    apply sumBy_congr
    intro d _
    rw [day_paid_split consumptions adj (employees.map (·.id)) d,
      day_paid_known consumptions adj d (employees.map (·.id)) hnodup]
  have htotal2 : sumPrices (expandConsumptions consumptions) =
      sumBy (fun d => baseDrinkCost (dayUnits consumptions d) +
        dayManualAddedCost (dayAdjOf adj d) (dayUnits consumptions d))
        (sortedDates consumptions) +
      (sumBy (fun e => sumBy (fun d => sumPrices (dayPaidOf consumptions adj d e))
          (sortedDates consumptions)) (employees.map (·.id)) +
        unknownPaidValue consumptions adj (employees.map (·.id))) := by
    rw [htotal, sumBy_add_distrib, hdaysplit,
      sumBy_comm (fun d e => sumPrices (dayPaidOf consumptions adj d e))
        (sortedDates consumptions) (employees.map (·.id))]
  rw [hgrand, hpay, htotal2]
  omega

theorem exists_snack_of_mem_dayEmpIds {consumptions : List Consumption} {d e : String}
    (he : e ∈ dayEmpIds (dayUnits consumptions d)) :
    ∃ u ∈ consumptions, u.itemType = .snack ∧ u.employeeId = e := by
  rw [dayEmpIds] at he
  rcases List.mem_map.mp (mem_firstKeys.mp he) with ⟨u, hu, heq⟩
  rcases List.mem_filter.mp hu with ⟨hu', hsn⟩
  exact ⟨u, (List.mem_filter.mp (mem_expandConsumptions.mp hu')).1, by simpa using hsn, heq⟩

/-- C1 counterexample: a snack record whose employeeId matches no employee
in the employees argument is billed to nobody: the two ledgers sum to 0
although the consumption input is worth 10, so money is destroyed and the
conservation claim fails for that input. -/
theorem conservation_cex :
    (calculateBilling [sampleSnack] [] 1 [] "2024-01-02").grandTotalCompanyAmount +
      sumBy (·.finalPayableAmount)
        (calculateBilling [sampleSnack] [] 1 [] "2024-01-02").employeeBills = 0 ∧
    sumBy (fun c => c.price * (c.quantity : Int)) [sampleSnack] = 10 ∧
    (0 : Int) ≠ 10 := by
  refine ⟨by decide, by decide, by decide⟩

/-- C1 (amended): for well-formed inputs — duplicate-free employee ids,
nonnegative prices, quantities at least 1, and every snack record's
employeeId matching some employee — the company grand total plus the sum
of all employee finalPayableAmounts equals the sum over all consumption
records of price times quantity: money is only reassigned between the two
ledgers. -/
theorem conservation_amended (consumptions : List Consumption) (employees : List Employee)
    (activeEmployeeCount : Nat) (adj : DailyAdjustmentMap) (today : String)
    (hnodup : (employees.map (·.id)).Nodup)
    (hpos : ∀ c ∈ consumptions, 0 ≤ c.price)
    (hqty : ∀ c ∈ consumptions, 1 ≤ c.quantity)
    (hknown : ∀ c ∈ consumptions, c.itemType = .snack →
      c.employeeId ∈ employees.map (·.id)) :
    (calculateBilling consumptions employees activeEmployeeCount adj
        today).grandTotalCompanyAmount +
      sumBy (·.finalPayableAmount)
        (calculateBilling consumptions employees activeEmployeeCount adj
          today).employeeBills =
      sumBy (fun c => c.price * (c.quantity : Int)) consumptions := by
  have h := conservation_general consumptions employees activeEmployeeCount adj today
    hnodup hpos
  have hzero : unknownPaidValue consumptions adj (employees.map (·.id)) = 0 := by
    rw [unknownPaidValue]
    apply sumBy_eq_zero
    intro d _
    have hnil : (dayEmpIds (dayUnits consumptions d)).filter
        (fun e => decide (e ∉ employees.map (·.id))) = [] := by
      rw [List.filter_eq_nil_iff]
      intro e he
      simp only [decide_eq_true_eq, not_not]
      rcases exists_snack_of_mem_dayEmpIds he with ⟨u, hu, hsn, heq⟩
      exact heq ▸ hknown u hu hsn
    rw [hnil]
    rfl
  have hval : sumPrices (expandConsumptions consumptions) =
      sumBy (fun c => c.price * (c.quantity : Int)) consumptions := by
    rw [sumPrices_expand]
    apply sumBy_congr
    intro c hc
    rw [qtyOf_eq_quantity (hqty c hc)]
  rw [hzero, add_zero, hval] at h
  exact h

/-- C1 witness: concrete instantiation of the amended conservation theorem
on a one-snack, one-employee input with an adjustment moving the unit. -/
theorem conservation_amended_witness :
    (calculateBilling [sampleSnack] [sampleEmp] 1
        [("2024-01-01", [("e1", [("s1", 1)])])] "2024-01-01").grandTotalCompanyAmount +
      sumBy (·.finalPayableAmount)
        (calculateBilling [sampleSnack] [sampleEmp] 1
          [("2024-01-01", [("e1", [("s1", 1)])])] "2024-01-01").employeeBills =
      sumBy (fun c => c.price * (c.quantity : Int)) [sampleSnack] :=
  conservation_amended [sampleSnack] [sampleEmp] 1
    [("2024-01-01", [("e1", [("s1", 1)])])] "2024-01-01"
    (by decide) (by decide) (by decide) (by decide)

/-- C10: a consumption record whose employeeId matches no employee appears
in no employee bill (every bill belongs to a listed employee id and only
carries that employee's own units), its adjusted snack units are still
moved onto the company ledger (the grand total is the base cost plus all
manual transfers, unknown consumers included), and the two ledgers miss
exactly the unmoved paid remainder of the unknown consumers. -/
theorem unknown_employee_accounting (consumptions : List Consumption)
    (employees : List Employee) (activeEmployeeCount : Nat)
    (adj : DailyAdjustmentMap) (today : String)
    (hnodup : (employees.map (·.id)).Nodup)
    (hpos : ∀ c ∈ consumptions, 0 ≤ c.price) :
    (∀ b ∈ (calculateBilling consumptions employees activeEmployeeCount adj
        today).employeeBills,
      b.employee.id ∈ employees.map (·.id) ∧
      ∀ u ∈ b.items, u.employeeId = b.employee.id) ∧
    (calculateBilling consumptions employees activeEmployeeCount adj
        today).grandTotalCompanyAmount =
      (calculateBilling consumptions employees activeEmployeeCount adj
        today).totalCompanyBaseAmount +
      (calculateBilling consumptions employees activeEmployeeCount adj
        today).totalManualTransferAmount ∧
    (calculateBilling consumptions employees activeEmployeeCount adj
        today).grandTotalCompanyAmount +
      sumBy (·.finalPayableAmount)
        (calculateBilling consumptions employees activeEmployeeCount adj
          today).employeeBills =
      sumPrices (expandConsumptions consumptions) -
        unknownPaidValue consumptions adj (employees.map (·.id)) := by
  refine ⟨?_, ?_, ?_⟩
  · intro b hb
    rcases List.mem_filter.mp hb with ⟨hb', _⟩
    rcases List.mem_map.mp hb' with ⟨emp, hemp, rfl⟩
    constructor
    · exact List.mem_map_of_mem _ hemp
    · intro u hu
      rcases List.mem_flatMap.mp hu with ⟨d, _, hmem⟩
      rcases List.mem_filter.mp hmem with ⟨_, hcond⟩
      have := (Bool.and_eq_true _ _).mp hcond
      simpa using this.2
  · show sumBy (·.totalDailyCost) (companyRows adj activeEmployeeCount consumptions) = _
    rw [companyRows, sumBy_map_list]
    show sumBy (fun d => baseDrinkCost (dayUnits consumptions d) +
      dayManualAddedCost (dayAdjOf adj d) (dayUnits consumptions d))
      (sortedDates consumptions) = _
    rw [sumBy_add_distrib]
    have hbase : (calculateBilling consumptions employees activeEmployeeCount adj
        today).totalCompanyBaseAmount =
        sumBy (fun d => baseDrinkCost (dayUnits consumptions d)) (sortedDates consumptions) := by
      show sumBy (·.baseDrinkCost) (companyRows adj activeEmployeeCount consumptions) = _
      rw [companyRows, sumBy_map_list]
      rfl
    rw [hbase]
    rfl
  · have h := conservation_general consumptions employees activeEmployeeCount adj today
      hnodup hpos
    omega

/-- C10 witness: with one known and one unknown snack consumer and an
adjustment moving one of the unknown consumer's two units, the accounting
theorem applies; its ledger-deficit equation holds at this input. -/
theorem unknown_employee_accounting_witness :
    (calculateBilling
        [sampleSnack,
         { id := "c9", employeeId := "e9", itemId := "s2", itemName := "Cake",
           itemType := .snack, price := 7, date := "2024-01-01", quantity := 2 }]
        [sampleEmp] 1 [("2024-01-01", [("e9", [("s2", 1)])])]
        "2024-01-01").grandTotalCompanyAmount +
      sumBy (·.finalPayableAmount)
        (calculateBilling
          [sampleSnack,
           { id := "c9", employeeId := "e9", itemId := "s2", itemName := "Cake",
             itemType := .snack, price := 7, date := "2024-01-01", quantity := 2 }]
          [sampleEmp] 1 [("2024-01-01", [("e9", [("s2", 1)])])]
          "2024-01-01").employeeBills =
      sumPrices (expandConsumptions
        [sampleSnack,
         { id := "c9", employeeId := "e9", itemId := "s2", itemName := "Cake",
           itemType := .snack, price := 7, date := "2024-01-01", quantity := 2 }]) -
        unknownPaidValue
          [sampleSnack,
           { id := "c9", employeeId := "e9", itemId := "s2", itemName := "Cake",
             itemType := .snack, price := 7, date := "2024-01-01", quantity := 2 }]
          [("2024-01-01", [("e9", [("s2", 1)])])] ([sampleEmp].map (·.id)) :=
  (unknown_employee_accounting
    [sampleSnack,
     { id := "c9", employeeId := "e9", itemId := "s2", itemName := "Cake",
       itemType := .snack, price := 7, date := "2024-01-01", quantity := 2 }]
    [sampleEmp] 1 [("2024-01-01", [("e9", [("s2", 1)])])] "2024-01-01"
    (by decide) (by decide)).2.2

end Billing

/-! ## Claim C5: descending-price deduction in the flat variant -/

theorem sumPrices_append (l₁ l₂ : List Consumption) :
    sumPrices (l₁ ++ l₂) = sumPrices l₁ + sumPrices l₂ :=
  sumBy_append _ _ _

theorem sumPrices_cons (u : Consumption) (l : List Consumption) :
    sumPrices (u :: l) = u.price + sumPrices l := by
  simp [sumPrices, sumBy]

/-- Extending a prefix of a list whose elements are all bounded by the
price of a costs at most a.price more. -/
theorem take_succ_price_le {a : Consumption} {l : List Consumption} (j : Nat)
    (hmax : ∀ b ∈ l, b.price ≤ a.price) (ha : 0 ≤ a.price) :
    sumPrices (l.take (j + 1)) ≤ a.price + sumPrices (l.take j) := by
  rw [List.take_succ, sumPrices_append]
  cases hj : l[j]? with
  | none =>
    have h0 : sumPrices ((none : Option Consumption).toList) = 0 := rfl
    rw [h0]
    omega
  | some x =>
    have hx : x ∈ l := by
      obtain ⟨hlt, heq⟩ := List.getElem?_eq_some.mp hj
      exact heq ▸ List.getElem_mem hlt
    have hxs : sumPrices ((some x).toList) = x.price := by
      simp [sumPrices, sumBy]
    rw [hxs]
    have := hmax x hx
    omega

/-- On a descending-price sorted list with nonnegative prices, no sublist
beats the prefix of its own length. -/
theorem sorted_take_max : ∀ {l s : List Consumption}, s.Sublist l →
    List.Sorted (fun a b => b.price ≤ a.price) l → (∀ u ∈ l, 0 ≤ u.price) →
    sumPrices s ≤ sumPrices (l.take s.length) := by
  intro l s hs
  induction hs with
  | slnil =>
    intro _ _
    exact le_refl _
  | @cons l₁ l₂ a hsub ih =>
    intro hsort hpos
    have hmax : ∀ b ∈ l₂, b.price ≤ a.price := (List.sorted_cons.mp hsort).1
    have ha : 0 ≤ a.price := hpos a (List.mem_cons_self _ _)
    have h1 := ih (List.sorted_cons.mp hsort).2
      (fun u hu => hpos u (List.mem_cons_of_mem a hu))
    refine le_trans h1 ?_
    cases hk : l₁.length with
    | zero => simp
    | succ j =>
      rw [List.take_succ_cons, sumPrices_cons]
      exact take_succ_price_le j hmax ha
  | @cons₂ l₁ l₂ a hsub ih =>
    intro hsort hpos
    have h1 := ih (List.sorted_cons.mp hsort).2
      (fun u hu => hpos u (List.mem_cons_of_mem a hu))
    rw [List.length_cons, List.take_succ_cons, sumPrices_cons, sumPrices_cons]
    omega

namespace BillingFlat

/-- C5: in the legacy flat variant, for every day and employee the deducted
snack units are a prefix of the descending-price sort of that employee's
expanded snack units of the day, of exactly the clamped count; they form a
sub-multiset of those units, and their total price is maximal among all
sub-multisets of the same size — hence the employee's payable amount is
minimal for that deduction count. -/
theorem flat_deduct_maximal (consumptions : List Consumption) (adj : FlatAdjustmentMap)
    (d : String) (empId : String) (s : List Consumption)
    (hpos : ∀ u ∈ empDaySnacks (dayUnits consumptions d) empId, 0 ≤ u.price)
    (hsub : s.Subperm (empDaySnacks (dayUnits consumptions d) empId))
    (hlen : s.length = (dayDeductedFlatOf consumptions adj d empId).length) :
    (dayDeductedFlatOf consumptions adj d empId).length =
      clampDeduct (flatAdjFor adj d empId)
        (empDaySnacks (dayUnits consumptions d) empId).length ∧
    (dayDeductedFlatOf consumptions adj d empId).Subperm
      (empDaySnacks (dayUnits consumptions d) empId) ∧
    sumPrices s ≤ sumPrices (dayDeductedFlatOf consumptions adj d empId) := by
  have hsortlen : (sortSnacksDesc (empDaySnacks (dayUnits consumptions d) empId)).length =
      (empDaySnacks (dayUnits consumptions d) empId).length :=
    List.length_insertionSort _ _
  have hclample : clampDeduct (flatAdjFor adj d empId)
      (empDaySnacks (dayUnits consumptions d) empId).length ≤
      (sortSnacksDesc (empDaySnacks (dayUnits consumptions d) empId)).length := by
    rw [hsortlen]
    exact Nat.min_le_left _ _
  have hdlen : (dayDeductedFlatOf consumptions adj d empId).length =
      clampDeduct (flatAdjFor adj d empId)
        (empDaySnacks (dayUnits consumptions d) empId).length := by
    rw [dayDeductedFlatOf, empDayDeductedFlat, List.length_take, hsortlen]
    omega
  have hperm : (sortSnacksDesc (empDaySnacks (dayUnits consumptions d) empId)).Perm
      (empDaySnacks (dayUnits consumptions d) empId) :=
    List.perm_insertionSort _ _
  refine ⟨hdlen, ?_, ?_⟩
  · exact (hperm.subperm_left.mp
      ((List.take_sublist _ _).subperm))
  · obtain ⟨t, htperm, htsub⟩ := (hperm.subperm_left.mpr hsub :
      s.Subperm (sortSnacksDesc (empDaySnacks (dayUnits consumptions d) empId)))
    have hsorted : List.Sorted (fun a b => b.price ≤ a.price)
        (sortSnacksDesc (empDaySnacks (dayUnits consumptions d) empId)) :=
      List.sorted_insertionSort _ _
    have hposs : ∀ u ∈ sortSnacksDesc (empDaySnacks (dayUnits consumptions d) empId),
        0 ≤ u.price := by
      intro u hu
      exact hpos u ((List.mem_insertionSort _).mp hu)
    have hbound := sorted_take_max htsub hsorted hposs
    have hts : sumPrices t = sumPrices s := sumBy_perm _ htperm
    have htl : t.length = s.length := htperm.length_eq
    rw [hts, htl, hlen, hdlen] at hbound
    have hded : (sortSnacksDesc (empDaySnacks (dayUnits consumptions d) empId)).take
        (clampDeduct (flatAdjFor adj d empId)
          (empDaySnacks (dayUnits consumptions d) empId).length) =
        dayDeductedFlatOf consumptions adj d empId := by
      rw [dayDeductedFlatOf, empDayDeductedFlat, hsortlen]
    rw [hded] at hbound
    exact hbound

/-- C5 witness: two same-day snack units priced 10 and 5 with a flat
adjustment of 1; the engine deducts the 10-unit and any other single-unit
sub-multiset (here the 5-unit) costs no more. -/
theorem flat_deduct_maximal_witness :
    sumPrices
        [{ id := "c2", employeeId := "e1", itemId := "s2", itemName := "Cake",
           itemType := .snack, price := 5, date := "2024-01-01", quantity := 1 }] ≤
      sumPrices (dayDeductedFlatOf
        [sampleSnack,
         { id := "c2", employeeId := "e1", itemId := "s2", itemName := "Cake",
           itemType := .snack, price := 5, date := "2024-01-01", quantity := 1 }]
        [("2024-01-01", [("e1", 1)])] "2024-01-01" "e1") :=
  (flat_deduct_maximal
    [sampleSnack,
     { id := "c2", employeeId := "e1", itemId := "s2", itemName := "Cake",
       itemType := .snack, price := 5, date := "2024-01-01", quantity := 1 }]
    [("2024-01-01", [("e1", 1)])] "2024-01-01" "e1"
    [{ id := "c2", employeeId := "e1", itemId := "s2", itemName := "Cake",
       itemType := .snack, price := 5, date := "2024-01-01", quantity := 1 }]
    (by decide) (by decide) (by decide)).2.2

end BillingFlat

/-! ## Claim C6: quantity-expansion invariance machinery -/

theorem dateKey_eraseQty (c : Consumption) : dateKey (eraseQty c) = dateKey c := rfl

theorem qtyOf_eraseQty (c : Consumption) : qtyOf (eraseQty c) = 1 := rfl

theorem filter_replicate_ite (p : Consumption → Bool) (n : Nat) (c : Consumption) :
    (List.replicate n c).filter p = if p c then List.replicate n c else [] := by
  induction n with
  | zero => simp
  | succ n ih =>
    simp only [List.replicate_succ, List.filter_cons, ih]
    by_cases hc : p c <;> simp [hc, List.replicate_succ]

theorem expandConsumptions_append (l₁ l₂ : List Consumption) :
    expandConsumptions (l₁ ++ l₂) = expandConsumptions l₁ ++ expandConsumptions l₂ := by
  simp [expandConsumptions, List.flatMap_append]

theorem expandConsumptions_replicate_unit (n : Nat) (c : Consumption) :
    expandConsumptions (List.replicate n (eraseQty c)) = List.replicate n (eraseQty c) := by
  induction n with
  | zero => rfl
  | succ n ih =>
    rw [List.replicate_succ, show expandConsumptions (eraseQty c :: List.replicate n (eraseQty c)) =
      List.replicate (qtyOf (eraseQty c)) (eraseQty c) ++
        expandConsumptions (List.replicate n (eraseQty c)) from rfl, ih, qtyOf_eraseQty]
    rfl

theorem expandConsumptions_single (r : Consumption) (hq : 1 ≤ r.quantity) :
    expandConsumptions [r] = List.replicate r.quantity r := by
  show List.replicate (qtyOf r) r ++ [] = List.replicate r.quantity r
  rw [List.append_nil, qtyOf_eq_quantity hq]

/-- The two ways of entering N units (one record of quantity N, or N
records of quantity 1) yield the same date multiset, hence the same sorted
grouping keys. -/
theorem sortedDates_qty_expand (l1 l2 : List Consumption) (r : Consumption)
    (hq : 1 ≤ r.quantity) :
    sortedDates (l1 ++ List.replicate r.quantity (eraseQty r) ++ l2) =
      sortedDates (l1 ++ [r] ++ l2) := by
  apply List.eq_of_perm_of_sorted (r := fun a b : String => a ≤ b)
  · refine (List.perm_insertionSort _ _).trans
      ((?_ : ((l1 ++ List.replicate r.quantity (eraseQty r) ++ l2).map dateKey).dedup.Perm
        ((l1 ++ [r] ++ l2).map dateKey).dedup).trans (List.perm_insertionSort _ _).symm)
    refine (List.perm_ext_iff_of_nodup (List.nodup_dedup _) (List.nodup_dedup _)).mpr ?_
    intro a
    simp only [List.mem_dedup, List.map_append, List.mem_append, List.map_replicate,
      List.mem_replicate, List.map_cons, List.map_nil, List.mem_singleton,
      dateKey_eraseQty]
    have hnz : r.quantity ≠ 0 := by omega
    constructor
    · rintro ((h | ⟨_, h⟩) | h)
      · exact Or.inl (Or.inl h)
      · exact Or.inl (Or.inr h)
      · exact Or.inr h
    · rintro ((h | h) | h)
      · exact Or.inl (Or.inl h)
      · exact Or.inl (Or.inr ⟨hnz, h⟩)
      · exact Or.inr h
  · exact List.sorted_insertionSort _ _
  · exact List.sorted_insertionSort _ _

/-- Up to quantity erasure, the units of each day agree between the two
entry styles. -/
theorem dayUnits_qty_expand (l1 l2 : List Consumption) (r : Consumption)
    (hq : 1 ≤ r.quantity) (d : String) :
    (dayUnits (l1 ++ List.replicate r.quantity (eraseQty r) ++ l2) d).map eraseQty =
      (dayUnits (l1 ++ [r] ++ l2) d).map eraseQty := by
  simp only [dayUnits, dayLogs, List.filter_append, expandConsumptions_append,
    List.map_append]
  have hmid : (expandConsumptions ((List.replicate r.quantity (eraseQty r)).filter
        (fun c => decide (dateKey c = d)))).map eraseQty =
      (expandConsumptions ([r].filter (fun c => decide (dateKey c = d)))).map eraseQty := by
    rw [filter_replicate_ite]
    by_cases hp : dateKey r = d
    · rw [if_pos (by simpa [dateKey_eraseQty] using (decide_eq_true (p := dateKey r = d) hp))]
      have h1 : [r].filter (fun c => decide (dateKey c = d)) = [r] := by simp [hp]
      rw [h1, expandConsumptions_replicate_unit, expandConsumptions_single r hq,
        List.map_replicate, List.map_replicate]
      rfl
    · rw [if_neg (by simpa [dateKey_eraseQty] using hp)]
      have h1 : [r].filter (fun c => decide (dateKey c = d)) = [] := by simp [hp]
      rw [h1]
  rw [hmid]

/-- Filters testing quantity-blind fields commute with quantity erasure. -/
theorem filter_map_eraseQty (p : Consumption → Bool) (hp : ∀ u, p (eraseQty u) = p u)
    (U : List Consumption) :
    (U.map eraseQty).filter p = (U.filter p).map eraseQty := by
  rw [List.filter_map]
  have h : U.filter (p ∘ eraseQty) = U.filter p :=
    List.filter_congr (fun u _ => hp u)
  rw [h]

theorem sumPrices_map_eraseQty (U : List Consumption) :
    sumPrices (U.map eraseQty) = sumPrices U := by
  show sumBy (·.price) (U.map eraseQty) = sumBy (·.price) U
  rw [sumBy_map_list]
  exact rfl

theorem drinkUnits_map_eraseQty (U : List Consumption) :
    drinkUnits (U.map eraseQty) = (drinkUnits U).map eraseQty :=
  filter_map_eraseQty (fun u => decide (u.itemType = .drink)) (fun _ => rfl) U

theorem snackUnits_map_eraseQty (U : List Consumption) :
    snackUnits (U.map eraseQty) = (snackUnits U).map eraseQty :=
  filter_map_eraseQty (fun u => decide (u.itemType = .snack)) (fun _ => rfl) U

theorem actualDrinkCount_map_eraseQty (U : List Consumption) :
    actualDrinkCount (U.map eraseQty) = actualDrinkCount U := by
  rw [actualDrinkCount, actualDrinkCount, drinkUnits_map_eraseQty, List.map_map]
  exact rfl

theorem baseDrinkCost_map_eraseQty (U : List Consumption) :
    baseDrinkCost (U.map eraseQty) = baseDrinkCost U := by
  rw [baseDrinkCost, baseDrinkCost, drinkUnits_map_eraseQty, sumPrices_map_eraseQty]

theorem dayEmpIds_map_eraseQty (U : List Consumption) :
    dayEmpIds (U.map eraseQty) = dayEmpIds U := by
  rw [dayEmpIds, dayEmpIds, snackUnits_map_eraseQty, List.map_map]
  exact rfl

theorem empDaySnacks_map_eraseQty (U : List Consumption) (e : String) :
    empDaySnacks (U.map eraseQty) e = (empDaySnacks U e).map eraseQty := by
  rw [empDaySnacks, empDaySnacks, snackUnits_map_eraseQty]
  exact filter_map_eraseQty (fun u => decide (u.employeeId = e)) (fun _ => rfl) _

namespace Billing

theorem empItemIds_map_eraseQty (s : List Consumption) :
    empItemIds (s.map eraseQty) = empItemIds s := by
  rw [empItemIds, empItemIds, List.map_map]
  exact rfl

theorem itemGroup_map_eraseQty (s : List Consumption) (i : String) :
    itemGroup (s.map eraseQty) i = (itemGroup s i).map eraseQty :=
  filter_map_eraseQty (fun u => decide (u.itemId = i)) (fun _ => rfl) s

theorem empDayDeducted_map_eraseQty (a : ItemAdjMap) (s : List Consumption) :
    empDayDeducted a (s.map eraseQty) = (empDayDeducted a s).map eraseQty := by
  rw [empDayDeducted, empDayDeducted, empItemIds_map_eraseQty, List.map_flatMap]
  apply List.flatMap_congr
  intro i _
  rw [itemGroup_map_eraseQty, List.map_take]

theorem dayManualAddedCost_map_eraseQty (a : EmpAdjMap) (U : List Consumption) :
    dayManualAddedCost a (U.map eraseQty) = dayManualAddedCost a U := by
  rw [dayManualAddedCost, dayManualAddedCost, dayEmpIds_map_eraseQty]
  apply sumBy_congr
  intro e _
  rw [empDaySnacks_map_eraseQty, empDayDeducted_map_eraseQty, sumPrices_map_eraseQty]

theorem dayManualAddedCount_map_eraseQty (a : EmpAdjMap) (U : List Consumption) :
    dayManualAddedCount a (U.map eraseQty) = dayManualAddedCount a U := by
  rw [dayManualAddedCount, dayManualAddedCount, dayEmpIds_map_eraseQty]
  apply sumBy_congr
  intro e _
  rw [empDaySnacks_map_eraseQty, empDayDeducted_map_eraseQty, List.length_map]

end Billing

/-- Transport any unit-list statistic along an equality of erased views. -/
theorem eraseQty_invariant {β : Type} (F : List Consumption → β)
    (hF : ∀ W, F (W.map eraseQty) = F W) {U V : List Consumption}
    (h : U.map eraseQty = V.map eraseQty) : F U = F V := by
  rw [← hF U, h, hF V]

namespace Billing

theorem companyRow_qty_expand (l1 l2 : List Consumption) (r : Consumption)
    (hq : 1 ≤ r.quantity) (adj : DailyAdjustmentMap) (activeEmployeeCount : Nat)
    (d : String) :
    rowNumerics (companyRow adj activeEmployeeCount
        (l1 ++ List.replicate r.quantity (eraseQty r) ++ l2) d) =
      rowNumerics (companyRow adj activeEmployeeCount (l1 ++ [r] ++ l2) d) := by
  have h := dayUnits_qty_expand l1 l2 r hq d
  have hbase := eraseQty_invariant baseDrinkCost baseDrinkCost_map_eraseQty h
  have hcost := eraseQty_invariant (dayManualAddedCost (dayAdjOf adj d))
    (dayManualAddedCost_map_eraseQty (dayAdjOf adj d)) h
  have hact := eraseQty_invariant actualDrinkCount actualDrinkCount_map_eraseQty h
  have hcnt := eraseQty_invariant (dayManualAddedCount (dayAdjOf adj d))
    (dayManualAddedCount_map_eraseQty (dayAdjOf adj d)) h
  simp only [rowNumerics, companyRow]
  rw [hbase, hcost, hact, hcnt]

theorem aggCount_qty_expand (l1 l2 : List Consumption) (r : Consumption)
    (hq : 1 ≤ r.quantity) (empId : String) :
    aggCount (l1 ++ List.replicate r.quantity (eraseQty r) ++ l2) empId =
      aggCount (l1 ++ [r] ++ l2) empId := by
  rw [aggCount, aggCount, sortedDates_qty_expand l1 l2 r hq]
  apply sumBy_congr
  intro d _
  exact eraseQty_invariant (fun W => (empDaySnacks W empId).length)
    (fun W => by
      show (empDaySnacks (W.map eraseQty) empId).length = (empDaySnacks W empId).length
      rw [empDaySnacks_map_eraseQty, List.length_map])
    (dayUnits_qty_expand l1 l2 r hq d)

theorem aggOrig_qty_expand (l1 l2 : List Consumption) (r : Consumption)
    (hq : 1 ≤ r.quantity) (empId : String) :
    aggOriginalAmount (l1 ++ List.replicate r.quantity (eraseQty r) ++ l2) empId =
      aggOriginalAmount (l1 ++ [r] ++ l2) empId := by
  rw [aggOriginalAmount, aggOriginalAmount, sortedDates_qty_expand l1 l2 r hq]
  apply sumBy_congr
  intro d _
  exact eraseQty_invariant (fun W => sumPrices (empDaySnacks W empId))
    (fun W => by
      show sumPrices (empDaySnacks (W.map eraseQty) empId) = sumPrices (empDaySnacks W empId)
      rw [empDaySnacks_map_eraseQty, sumPrices_map_eraseQty])
    (dayUnits_qty_expand l1 l2 r hq d)

theorem aggDedCount_qty_expand (l1 l2 : List Consumption) (r : Consumption)
    (hq : 1 ≤ r.quantity) (adj : DailyAdjustmentMap) (empId : String) :
    aggDeductedCount (l1 ++ List.replicate r.quantity (eraseQty r) ++ l2) adj empId =
      aggDeductedCount (l1 ++ [r] ++ l2) adj empId := by
  rw [aggDeductedCount, aggDeductedCount, sortedDates_qty_expand l1 l2 r hq]
  apply sumBy_congr
  intro d _
  show (dayDeductedOf _ adj d empId).length = (dayDeductedOf _ adj d empId).length
  rw [dayDeductedOf, dayDeductedOf]
  exact eraseQty_invariant
    (fun W => (empDayDeducted (empAdjOf (dayAdjOf adj d) empId) (empDaySnacks W empId)).length)
    (fun W => by
      show (empDayDeducted (empAdjOf (dayAdjOf adj d) empId)
          (empDaySnacks (W.map eraseQty) empId)).length =
        (empDayDeducted (empAdjOf (dayAdjOf adj d) empId) (empDaySnacks W empId)).length
      rw [empDaySnacks_map_eraseQty, empDayDeducted_map_eraseQty, List.length_map])
    (dayUnits_qty_expand l1 l2 r hq d)

theorem aggDedAmount_qty_expand (l1 l2 : List Consumption) (r : Consumption)
    (hq : 1 ≤ r.quantity) (adj : DailyAdjustmentMap) (empId : String) :
    aggDeductedAmount (l1 ++ List.replicate r.quantity (eraseQty r) ++ l2) adj empId =
      aggDeductedAmount (l1 ++ [r] ++ l2) adj empId := by
  rw [aggDeductedAmount, aggDeductedAmount, sortedDates_qty_expand l1 l2 r hq]
  apply sumBy_congr
  intro d _
  show sumPrices (dayDeductedOf _ adj d empId) = sumPrices (dayDeductedOf _ adj d empId)
  rw [dayDeductedOf, dayDeductedOf]
  exact eraseQty_invariant
    (fun W => sumPrices (empDayDeducted (empAdjOf (dayAdjOf adj d) empId) (empDaySnacks W empId)))
    (fun W => by
      show sumPrices (empDayDeducted (empAdjOf (dayAdjOf adj d) empId)
          (empDaySnacks (W.map eraseQty) empId)) =
        sumPrices (empDayDeducted (empAdjOf (dayAdjOf adj d) empId) (empDaySnacks W empId))
      rw [empDaySnacks_map_eraseQty, empDayDeducted_map_eraseQty, sumPrices_map_eraseQty])
    (dayUnits_qty_expand l1 l2 r hq d)

theorem billNumerics_qty_expand (l1 l2 : List Consumption) (r : Consumption)
    (hq : 1 ≤ r.quantity) (adj : DailyAdjustmentMap) (today : String) (emp : Employee) :
    billNumerics (mkEmployeeBill (l1 ++ List.replicate r.quantity (eraseQty r) ++ l2)
        adj today emp) =
      billNumerics (mkEmployeeBill (l1 ++ [r] ++ l2) adj today emp) := by
  have h1 := aggCount_qty_expand l1 l2 r hq emp.id
  have h2 := aggOrig_qty_expand l1 l2 r hq emp.id
  have h3 := aggDedCount_qty_expand l1 l2 r hq adj emp.id
  have h4 := aggDedAmount_qty_expand l1 l2 r hq adj emp.id
  simp only [billNumerics, mkEmployeeBill]
  rw [h1, h2, h3, h4]

theorem employeeBills_qty_expand (l1 l2 : List Consumption) (r : Consumption)
    (hq : 1 ≤ r.quantity) (employees : List Employee) (adj : DailyAdjustmentMap)
    (today : String) :
    (employeeBills (l1 ++ List.replicate r.quantity (eraseQty r) ++ l2) employees adj
        today).map billNumerics =
      (employeeBills (l1 ++ [r] ++ l2) employees adj today).map billNumerics := by
  rw [employeeBills, employeeBills]
  induction employees with
  | nil => rfl
  | cons e es ih =>
    simp only [List.map_cons, List.filter_cons]
    have hcnt : aggCount (l1 ++ List.replicate r.quantity (eraseQty r) ++ l2) e.id =
        aggCount (l1 ++ [r] ++ l2) e.id := aggCount_qty_expand l1 l2 r hq e.id
    by_cases hc : 0 < (mkEmployeeBill (l1 ++ [r] ++ l2) adj today e).originalItemCount
    · have hc' : 0 < (mkEmployeeBill (l1 ++ List.replicate r.quantity (eraseQty r) ++ l2)
          adj today e).originalItemCount := by
        show 0 < aggCount (l1 ++ List.replicate r.quantity (eraseQty r) ++ l2) e.id
        rw [hcnt]
        exact hc
      rw [if_pos (decide_eq_true hc'), if_pos (decide_eq_true hc), List.map_cons,
        List.map_cons, ih, billNumerics_qty_expand l1 l2 r hq adj today e]
    · have hc' : ¬ 0 < (mkEmployeeBill (l1 ++ List.replicate r.quantity (eraseQty r) ++ l2)
          adj today e).originalItemCount := by
        show ¬ 0 < aggCount (l1 ++ List.replicate r.quantity (eraseQty r) ++ l2) e.id
        rw [hcnt]
        exact hc
      rw [if_neg (by simpa using hc'), if_neg (by simpa using hc)]
      exact ih

/-- C6: calculateBilling is invariant under quantity expansion — replacing
a record of quantity N (N at least 1) by N copies of the same record with
quantity 1 leaves every monetary total and unit count of the BillingResult
unchanged: the per-day company rows agree on all numeric fields, the
employee bills agree on all numeric fields, and the three grand totals
agree; a record of quantity N is billed exactly as N unit-priced line
items. -/
theorem quantity_expansion_invariant (l1 l2 : List Consumption) (r : Consumption)
    (employees : List Employee) (activeEmployeeCount : Nat)
    (adj : DailyAdjustmentMap) (today : String) (hq : 1 ≤ r.quantity) :
    (calculateBilling (l1 ++ List.replicate r.quantity (eraseQty r) ++ l2) employees
        activeEmployeeCount adj today).companyBillRows.map rowNumerics =
      (calculateBilling (l1 ++ [r] ++ l2) employees activeEmployeeCount adj
        today).companyBillRows.map rowNumerics ∧
    (calculateBilling (l1 ++ List.replicate r.quantity (eraseQty r) ++ l2) employees
        activeEmployeeCount adj today).employeeBills.map billNumerics =
      (calculateBilling (l1 ++ [r] ++ l2) employees activeEmployeeCount adj
        today).employeeBills.map billNumerics ∧
    (calculateBilling (l1 ++ List.replicate r.quantity (eraseQty r) ++ l2) employees
        activeEmployeeCount adj today).totalCompanyBaseAmount =
      (calculateBilling (l1 ++ [r] ++ l2) employees activeEmployeeCount adj
        today).totalCompanyBaseAmount ∧
    (calculateBilling (l1 ++ List.replicate r.quantity (eraseQty r) ++ l2) employees
        activeEmployeeCount adj today).totalManualTransferAmount =
      (calculateBilling (l1 ++ [r] ++ l2) employees activeEmployeeCount adj
        today).totalManualTransferAmount ∧
    (calculateBilling (l1 ++ List.replicate r.quantity (eraseQty r) ++ l2) employees
        activeEmployeeCount adj today).grandTotalCompanyAmount =
      (calculateBilling (l1 ++ [r] ++ l2) employees activeEmployeeCount adj
        today).grandTotalCompanyAmount := by
  refine ⟨?_, ?_, ?_, ?_, ?_⟩
  · show (companyRows adj activeEmployeeCount _).map rowNumerics =
      (companyRows adj activeEmployeeCount _).map rowNumerics
    rw [companyRows, companyRows, sortedDates_qty_expand l1 l2 r hq,
      List.map_map, List.map_map]
    apply List.map_congr_left
    intro d _
    exact companyRow_qty_expand l1 l2 r hq adj activeEmployeeCount d
  · exact employeeBills_qty_expand l1 l2 r hq employees adj today
  · show sumBy (·.baseDrinkCost) (companyRows adj activeEmployeeCount _) =
      sumBy (·.baseDrinkCost) (companyRows adj activeEmployeeCount _)
    rw [companyRows, companyRows, sortedDates_qty_expand l1 l2 r hq,
      sumBy_map_list, sumBy_map_list]
    apply sumBy_congr
    intro d _
    exact eraseQty_invariant baseDrinkCost baseDrinkCost_map_eraseQty
      (dayUnits_qty_expand l1 l2 r hq d)
  · show sumBy (fun d => dayManualAddedCost (dayAdjOf adj d) (dayUnits _ d))
        (sortedDates _) =
      sumBy (fun d => dayManualAddedCost (dayAdjOf adj d) (dayUnits _ d)) (sortedDates _)
    rw [sortedDates_qty_expand l1 l2 r hq]
    apply sumBy_congr
    intro d _
    exact eraseQty_invariant (dayManualAddedCost (dayAdjOf adj d))
      (dayManualAddedCost_map_eraseQty (dayAdjOf adj d))
      (dayUnits_qty_expand l1 l2 r hq d)
  · show sumBy (·.totalDailyCost) (companyRows adj activeEmployeeCount _) =
      sumBy (·.totalDailyCost) (companyRows adj activeEmployeeCount _)
    rw [companyRows, companyRows, sortedDates_qty_expand l1 l2 r hq,
      sumBy_map_list, sumBy_map_list]
    apply sumBy_congr
    intro d _
    show baseDrinkCost (dayUnits _ d) + dayManualAddedCost (dayAdjOf adj d) (dayUnits _ d) =
      baseDrinkCost (dayUnits _ d) + dayManualAddedCost (dayAdjOf adj d) (dayUnits _ d)
    rw [eraseQty_invariant baseDrinkCost baseDrinkCost_map_eraseQty
        (dayUnits_qty_expand l1 l2 r hq d),
      eraseQty_invariant (dayManualAddedCost (dayAdjOf adj d))
        (dayManualAddedCost_map_eraseQty (dayAdjOf adj d))
        (dayUnits_qty_expand l1 l2 r hq d)]

/-- C6 witness: the theorem applied to a quantity-2 snack record, one
employee, and an adjustment moving one unit, at the grand-total
projection. -/
theorem quantity_expansion_invariant_witness :
    (calculateBilling ([] ++ List.replicate sampleSnackQty2.quantity
        (eraseQty sampleSnackQty2) ++ [])
        [sampleEmp] 1 [("2024-01-01", [("e1", [("s1", 1)])])]
        "2024-01-01").grandTotalCompanyAmount =
      (calculateBilling ([] ++ [sampleSnackQty2] ++ []) [sampleEmp] 1
        [("2024-01-01", [("e1", [("s1", 1)])])]
        "2024-01-01").grandTotalCompanyAmount :=
  (quantity_expansion_invariant [] [] sampleSnackQty2
    [sampleEmp] 1 [("2024-01-01", [("e1", [("s1", 1)])])] "2024-01-01"
    (by decide)).2.2.2.2

end Billing

end TeaTrack
